import Mathlib

/-!
Shallow embedding of the Farq raster-analysis library (src/farq) in Lean 4.

Conventions of the embedding:
* numpy floating-point scalars are modelled by `FVal`: either a finite rational
  (`FVal.fin q`, floats read as exact reals), `nan`, `inf` or `ninf`, with IEEE
  semantics for the arithmetic the library uses.  Where the source converts an
  integer array with `astype(float)` the embedding is the identity, since all
  numeric values are already `FVal`.
* a 2-D numpy array of `α` is a `Grid α`: a height, a width and a total
  function `Nat → Nat → α`.  The function representation fixes out-of-bounds
  reads; whenever a grid is rebuilt from a concrete pattern (e.g. the
  `astype(bool)` conversion) the out-of-bounds entries are normalised, mirroring
  the fact that a numpy array simply has no out-of-bounds entries.
* Python exceptions become `Except Err`, with `Err` the error kinds of the
  specification (the source raises `TypeError`/`ValueError` with messages;
  each raise site is mapped to its kind).
-/

inductive Err where
  | invalidInput
  | invalidParameter
  | shapeMismatch
  | emptyInput
  | allInvalid
deriving DecidableEq, Repr

/-- An IEEE-style scalar: finite rational, NaN, +inf or -inf. -/
inductive FVal where
  | fin (q : ℚ)
  | nan
  | inf
  | ninf
deriving DecidableEq, Repr

namespace FVal

def isnan : FVal → Bool
  | nan => true
  | _ => false

def isinf : FVal → Bool
  | inf => true
  | ninf => true
  | _ => false

/-- `astype(bool)` on one element: nonzero (including NaN and ±inf) is True. -/
def toBool : FVal → Bool
  | fin q => decide (q ≠ 0)
  | _ => true

def neg : FVal → FVal
  | fin q => fin (-q)
  | nan => nan
  | inf => ninf
  | ninf => inf

def add : FVal → FVal → FVal
  | nan, _ => nan
  | _, nan => nan
  | fin a, fin b => fin (a + b)
  | fin _, inf => inf
  | fin _, ninf => ninf
  | inf, fin _ => inf
  | ninf, fin _ => ninf
  | inf, inf => inf
  | inf, ninf => nan
  | ninf, inf => nan
  | ninf, ninf => ninf

def sub (a b : FVal) : FVal := add a (neg b)

def mul : FVal → FVal → FVal
  | nan, _ => nan
  | _, nan => nan
  | fin a, fin b => fin (a * b)
  | fin a, inf => if a = 0 then nan else if 0 < a then inf else ninf
  | fin a, ninf => if a = 0 then nan else if 0 < a then ninf else inf
  | inf, fin b => if b = 0 then nan else if 0 < b then inf else ninf
  | ninf, fin b => if b = 0 then nan else if 0 < b then ninf else inf
  | inf, inf => inf
  | inf, ninf => ninf
  | ninf, inf => ninf
  | ninf, ninf => inf

def div : FVal → FVal → FVal
  | nan, _ => nan
  | _, nan => nan
  | fin a, fin b =>
      if b = 0 then (if a = 0 then nan else if 0 < a then inf else ninf)
      else fin (a / b)
  | fin _, inf => fin 0
  | fin _, ninf => fin 0
  | inf, fin b => if 0 ≤ b then inf else ninf
  | ninf, fin b => if 0 ≤ b then ninf else inf
  | inf, inf => nan
  | inf, ninf => nan
  | ninf, inf => nan
  | ninf, ninf => nan

/-- Total order used by numpy comparisons on non-NaN values. -/
def fle : FVal → FVal → Bool
  | ninf, _ => true
  | _, ninf => false
  | _, inf => true
  | inf, _ => false
  | fin a, fin b => decide (a ≤ b)
  | nan, _ => false
  | _, nan => false

def fmin (a b : FVal) : FVal := if fle a b then a else b

def fmax (a b : FVal) : FVal := if fle a b then b else a

/-- `np.clip(x, -1.0, 1.0)`: `minimum(1, maximum(-1, x))`; NaN propagates,
infinities saturate. -/
def clip1 : FVal → FVal
  | nan => nan
  | inf => fin 1
  | ninf => fin (-1)
  | fin q => fin (max (-1 : ℚ) (min 1 q))

/-- `np.nan_to_num(x, nan=0.0, posinf=0.0, neginf=0.0)` on one element. -/
def nanToNum : FVal → FVal
  | fin q => fin q
  | _ => fin 0

end FVal

/-- A 2-D numpy array: shape `(H, W)` plus a total lookup function. -/
structure Grid (α : Type) where
  H : Nat
  W : Nat
  data : Nat → Nat → α

namespace Grid

def size {α : Type} (g : Grid α) : Nat := g.H * g.W

/-- Row-major list of all in-bounds index pairs of an `H × W` array. -/
def cells (H W : Nat) : List (Nat × Nat) :=
  (List.range H).flatMap (fun i => (List.range W).map (fun j => (i, j)))

/-- Row-major flattening (`ravel`). -/
def toList {α : Type} (g : Grid α) : List α :=
  (cells g.H g.W).map (fun c => g.data c.1 c.2)

/-- Build a grid from a list of rows (how concrete numpy literals enter the
embedding); out-of-bounds entries take the supplied default. -/
def ofRows {α : Type} (d : α) (rows : List (List α)) : Grid α :=
  ⟨rows.length, (rows.headD []).length, fun i j => (rows.getD i []).getD j d⟩

/-- Pointwise binary operation on same-shaped arrays (numpy broadcasting is
never exercised by the library on mismatched shapes after validation). -/
def map2 {α : Type} (f : α → α → α) (a b : Grid α) : Grid α :=
  ⟨a.H, a.W, fun i j => f (a.data i j) (b.data i j)⟩

def map {α β : Type} (f : α → β) (a : Grid α) : Grid β :=
  ⟨a.H, a.W, fun i j => f (a.data i j)⟩

end Grid

/-- Shape of a numpy array of arbitrary dimension, plus its (flattened) data;
used by `validate_bands`, which inspects only `shape` and `size`. -/
structure NDArr where
  shape : List Nat
  data : Nat → FVal

def NDArr.size (a : NDArr) : Nat := a.shape.prod

/-- View of a 2-D grid as an n-d array of shape `[H, W]`. -/
def Grid.toND (g : Grid FVal) : NDArr :=
  ⟨[g.H, g.W], fun n => g.data (n / g.W) (n % g.W)⟩

namespace Farq

open FVal

namespace Indices

/-- `farq.indices.validate_bands`: fails if no bands are given, if any band is
empty, or if the shapes are not all identical.  (The `isinstance(band,
np.ndarray)` check is vacuous in the typed embedding; the source's two `for`
loops are rendered as `List.any` — every raise site carries the same error
kind, and comparing the head band against itself is vacuous.)  Note the
source never checks `ndim`. -/
def validate_bands (bands : List NDArr) : Except Err Unit :=
  if bands.isEmpty then Except.error Err.invalidInput
  else if bands.any (fun band => decide (band.size = 0)) then
    Except.error Err.invalidInput
  else if bands.any (fun band =>
      decide (band.shape ≠ (bands.headD ⟨[], fun _ => FVal.fin 0⟩).shape)) then
    Except.error Err.invalidInput
  else Except.ok ()

/-- `farq.indices.ndvi`: validate, compute `(nir - red) / (nir + red)`,
replace NaN/±inf by 0, clip to `[-1, 1]`. -/
def ndvi (nir red : Grid FVal) : Except Err (Grid FVal) := do
  validate_bands [Grid.toND nir, Grid.toND red]
  return ⟨nir.H, nir.W, fun i j =>
    clip1 (nanToNum (div (sub (nir.data i j) (red.data i j))
                        (add (nir.data i j) (red.data i j))))⟩

/-- `farq.indices.ndwi`: validate, compute `(green - nir) / (green + nir)`,
replace NaN/±inf by 0, clip to `[-1, 1]`. -/
def ndwi (green nir : Grid FVal) : Except Err (Grid FVal) := do
  validate_bands [Grid.toND green, Grid.toND nir]
  return ⟨green.H, green.W, fun i j =>
    clip1 (nanToNum (div (sub (green.data i j) (nir.data i j))
                        (add (green.data i j) (nir.data i j))))⟩

/-- `farq.indices.savi`: validate bands, require `0 ≤ L ≤ 1`, compute
`((nir - red) / (nir + red + L)) * (1 + L)`, replace NaN/±inf by 0, clip. -/
def savi (nir red : Grid FVal) (L : ℚ := 1/2) : Except Err (Grid FVal) := do
  validate_bands [Grid.toND nir, Grid.toND red]
  if ¬(0 ≤ L ∧ L ≤ 1) then
    throw Err.invalidParameter
  return ⟨nir.H, nir.W, fun i j =>
    clip1 (nanToNum (mul (div (sub (nir.data i j) (red.data i j))
                              (add (add (nir.data i j) (red.data i j)) (FVal.fin L)))
                         (FVal.fin (1 + L))))⟩

/-- `farq.indices.evi`: validate bands, require `L ≥ 0` and `G > 0`, compute
`G * (nir - red) / (nir + C1*red - C2*blue + L)`, replace NaN/±inf by 0,
clip.  (The source checks the parameters are numeric, vacuous here.) -/
def evi (red nir blue : Grid FVal)
    (G : ℚ := 5/2) (C1 : ℚ := 6) (C2 : ℚ := 15/2) (L : ℚ := 1) :
    Except Err (Grid FVal) := do
  validate_bands [Grid.toND red, Grid.toND nir, Grid.toND blue]
  if L < 0 then
    throw Err.invalidParameter
  if G ≤ 0 then
    throw Err.invalidParameter
  return ⟨red.H, red.W, fun i j =>
    clip1 (nanToNum (div (mul (FVal.fin G) (sub (nir.data i j) (red.data i j)))
      (add (sub (add (nir.data i j) (mul (FVal.fin C1) (red.data i j)))
               (mul (FVal.fin C2) (blue.data i j)))
           (FVal.fin L))))⟩

end Indices

namespace Core

/-- `farq.core._normalize`: `(band1 - band2) / (band1 + band2 + 1e-10)`,
with the bands cast to float first (identity here). -/
def _normalize (band1 band2 : Grid FVal) : Grid FVal :=
  ⟨band1.H, band1.W, fun i j =>
    FVal.div (FVal.sub (band1.data i j) (band2.data i j))
      (FVal.add (FVal.add (band1.data i j) (band2.data i j))
        (FVal.fin (1 / 10000000000)))⟩

/-- `farq.core.ndvi`: `clip(_normalize(nir, red), -1, 1)`; no validation and
no NaN substitution. -/
def ndvi (nir red : Grid FVal) : Grid FVal :=
  Grid.map FVal.clip1 (_normalize nir red)

/-- `farq.core.ndwi`: `clip(_normalize(green, nir), -1, 1)`. -/
def ndwi (green nir : Grid FVal) : Grid FVal :=
  Grid.map FVal.clip1 (_normalize green nir)

/-- `farq.core.mndwi`: `clip(_normalize(green, swir), -1, 1)`. -/
def mndwi (green swir : Grid FVal) : Grid FVal :=
  Grid.map FVal.clip1 (_normalize green swir)

/-- `farq.core.ndbi`: `clip(_normalize(swir, nir), -1, 1)`. -/
def ndbi (swir nir : Grid FVal) : Grid FVal :=
  Grid.map FVal.clip1 (_normalize swir nir)

/-- `farq.core.savi`: `clip(((nir - red) / (nir + red + L)) * (1 + L), -1, 1)`;
no validation of `L` and no NaN substitution. -/
def savi (nir red : Grid FVal) (L : ℚ := 1/2) : Grid FVal :=
  ⟨nir.H, nir.W, fun i j =>
    FVal.clip1 (FVal.mul
      (FVal.div (FVal.sub (nir.data i j) (red.data i j))
        (FVal.add (FVal.add (nir.data i j) (red.data i j)) (FVal.fin L)))
      (FVal.fin (1 + L)))⟩

/-- `farq.core.evi`: `clip(G * (nir - red) / (nir + C1*red - C2*blue + L),
-1, 1)`; no validation and no NaN substitution. -/
def evi (nir red blue : Grid FVal)
    (G : ℚ := 5/2) (C1 : ℚ := 6) (C2 : ℚ := 15/2) (L : ℚ := 1) : Grid FVal :=
  ⟨nir.H, nir.W, fun i j =>
    FVal.clip1 (FVal.div
      (FVal.mul (FVal.fin G) (FVal.sub (nir.data i j) (red.data i j)))
      (FVal.add (FVal.sub (FVal.add (nir.data i j) (FVal.mul (FVal.fin C1) (red.data i j)))
                 (FVal.mul (FVal.fin C2) (blue.data i j)))
        (FVal.fin L)))⟩

end Core

/-- Result of a numpy reduction: a scalar for `axis=None`, a 1-D array for an
explicit axis. -/
inductive NPRes where
  | scalar (v : FVal)
  | vec (l : List FVal)
deriving DecidableEq, Repr

def NPRes.anyNan : NPRes → Bool
  | scalar v => v.isnan
  | vec l => l.any FVal.isnan

namespace Utils

/-- The slices a reduction with the given axis runs over: the whole flattened
array for `axis=None`, the columns for `axis=0`, the rows for `axis=1`. -/
def slicesOf (g : Grid FVal) : Option (Fin 2) → List (List FVal)
  | none => [g.toList]
  | some ⟨0, _⟩ =>
      (List.range g.W).map (fun j => (List.range g.H).map (fun i => g.data i j))
  | some ⟨_ + 1, _⟩ =>
      (List.range g.H).map (fun i => (List.range g.W).map (fun j => g.data i j))

def applyRed (g : Grid FVal) (axis : Option (Fin 2)) (red : List FVal → FVal) :
    NPRes :=
  match axis with
  | none => .scalar (red g.toList)
  | some a => .vec ((slicesOf g (some a)).map red)

def notNan (l : List FVal) : List FVal := l.filter (fun v => !v.isnan)

/-- `np.nansum` over one slice: NaNs replaced by 0, then summed (so a slice
holding both infinities still sums to NaN). -/
def nansumL (l : List FVal) : FVal :=
  (l.map (fun v => if v.isnan then FVal.fin 0 else v)).foldl FVal.add (FVal.fin 0)

/-- Arithmetic mean of a list, NaN on an empty list. -/
def meanL : List FVal → FVal
  | [] => FVal.nan
  | x :: xs =>
      FVal.div ((x :: xs).foldl FVal.add (FVal.fin 0)) (FVal.fin (x :: xs).length)

/-- `np.nanmean` over one slice. -/
def nanmeanL (l : List FVal) : FVal := meanL (notNan l)

/-- `np.nanmin` over one slice. -/
def nanminL (l : List FVal) : FVal :=
  match notNan l with
  | [] => FVal.nan
  | x :: xs => xs.foldl FVal.fmin x

/-- `np.nanmax` over one slice. -/
def nanmaxL (l : List FVal) : FVal :=
  match notNan l with
  | [] => FVal.nan
  | x :: xs => xs.foldl FVal.fmax x

/-- Square root lifted to `FVal`.  The exact real square root of a rational is
irrational in general; `Rat.sqrt` approximates the finite case, while the
NaN/infinity/sign structure — the only part `farq.utils.std`'s error contract
depends on — is exact. -/
def fsqrt : FVal → FVal
  | FVal.nan => FVal.nan
  | FVal.inf => FVal.inf
  | FVal.ninf => FVal.nan
  | FVal.fin q => if q < 0 then FVal.nan else FVal.fin (Rat.sqrt q)

/-- `np.nanstd` over one slice: square root of the mean squared deviation of
the non-NaN entries. -/
def nanstdL (l : List FVal) : FVal :=
  match notNan l with
  | [] => FVal.nan
  | x :: xs =>
      let m := meanL (x :: xs)
      fsqrt (meanL ((x :: xs).map (fun v => FVal.mul (FVal.sub v m) (FVal.sub v m))))

def fleP (a b : FVal) : Prop := FVal.fle a b = true

instance : DecidableRel fleP := fun a b => decEq (FVal.fle a b) true

def sortL (l : List FVal) : List FVal := List.insertionSort fleP l

/-- `np.median` over one slice: NaN as soon as the slice holds a NaN, else the
middle of the sorted slice (mean of the two middles for even length). -/
def medianL (l : List FVal) : FVal :=
  if l.any FVal.isnan then FVal.nan
  else
    let s := sortL l
    let n := s.length
    if n % 2 = 1 then s.getD (n / 2) FVal.nan
    else FVal.div (FVal.add (s.getD (n / 2 - 1) FVal.nan) (s.getD (n / 2) FVal.nan))
      (FVal.fin 2)

/-- `farq.utils.validate_array`: rejects empty arrays, then all-NaN arrays. -/
def validate_array (g : Grid FVal) : Except Err Unit := do
  if g.size = 0 then
    throw Err.emptyInput
  if g.toList.all FVal.isnan then
    throw Err.allInvalid
  return ()

/-- `farq.utils.sum`: validate, then `np.nansum`; no post-check on the result. -/
def sum (g : Grid FVal) (axis : Option (Fin 2) := none) : Except Err NPRes := do
  validate_array g
  return applyRed g axis nansumL

/-- `farq.utils.mean`: validate, `np.nanmean`, then fail if any entry of the
result is NaN. -/
def mean (g : Grid FVal) (axis : Option (Fin 2) := none) : Except Err NPRes := do
  validate_array g
  let r := applyRed g axis nanmeanL
  if r.anyNan then
    throw Err.allInvalid
  return r

/-- `farq.utils.std`: validate, `np.nanstd`, then fail if any entry of the
result is NaN. -/
def std (g : Grid FVal) (axis : Option (Fin 2) := none) : Except Err NPRes := do
  validate_array g
  let r := applyRed g axis nanstdL
  if r.anyNan then
    throw Err.allInvalid
  return r

/-- `farq.utils.min`: validate, `np.nanmin`, then fail if any entry of the
result is NaN. -/
def min (g : Grid FVal) (axis : Option (Fin 2) := none) : Except Err NPRes := do
  validate_array g
  let r := applyRed g axis nanminL
  if r.anyNan then
    throw Err.allInvalid
  return r

/-- `farq.utils.max`: validate, `np.nanmax`, then fail if any entry of the
result is NaN. -/
def max (g : Grid FVal) (axis : Option (Fin 2) := none) : Except Err NPRes := do
  validate_array g
  let r := applyRed g axis nanmaxL
  if r.anyNan then
    throw Err.allInvalid
  return r

/-- `farq.utils.median`: plain `np.median`, no validation at all. -/
def median (g : Grid FVal) (axis : Option (Fin 2) := none) : Except Err NPRes :=
  return applyRed g axis medianL

/-- Linear-interpolation percentile of a sorted non-empty NaN-free slice. -/
def percL (l : List FVal) (q : ℚ) : FVal :=
  if l.any FVal.isnan then FVal.nan
  else
    let s := sortL l
    let rank : ℚ := q * (s.length - 1) / 100
    let i : Nat := (⌊rank⌋).toNat
    let frac : ℚ := rank - i
    if frac = 0 then s.getD i FVal.nan
    else FVal.add (s.getD i FVal.nan)
      (FVal.mul (FVal.fin frac) (FVal.sub (s.getD (i + 1) FVal.nan) (s.getD i FVal.nan)))

/-- `farq.utils.percentile`: plain `np.percentile` over the flattened data; no
NaN validation (numpy itself rejects a percentile outside `[0, 100]` and an
empty array). -/
def percentile (g : Grid FVal) (q : ℚ) : Except Err FVal := do
  if q < 0 ∨ 100 < q then
    throw Err.invalidParameter
  if g.size = 0 then
    throw Err.invalidInput
  return percL g.toList q

/-- `farq.utils.count_nonzero`: plain `np.count_nonzero` (NaN counts as
nonzero); no validation. -/
def count_nonzero (g : Grid FVal) (axis : Option (Fin 2) := none) :
    Except Err NPRes :=
  return applyRed g axis (fun l => FVal.fin (l.countP FVal.toBool))

/-- `farq.utils.unique`: plain `np.unique`; sorted distinct values, optionally
with their multiplicities; no validation. -/
def unique (g : Grid FVal) (return_counts : Bool := false) :
    Except Err (List FVal × List Nat) := do
  let vals := sortL g.toList.dedup
  return (vals, if return_counts then vals.map (fun v => g.toList.count v) else [])

end Utils

/-- A pixel size argument: a positive scalar for square pixels or an explicit
width/height pair (a Python tuple of length ≠ 2 is unrepresentable here). -/
inductive PixelSize where
  | scalar (p : ℚ)
  | pair (w h : ℚ)
deriving DecidableEq, Repr

namespace Analysis

/-- The pixel-size validation and `pixel_area` computation shared verbatim by
`water_stats`, `water_change` and `get_water_bodies`: positive sizes only,
area in km² (`/ 1_000_000`). -/
def pixelArea : PixelSize → Except Err ℚ
  | PixelSize.scalar p =>
      if p ≤ 0 then Except.error Err.invalidParameter
      else Except.ok (p * p / 1000000)
  | PixelSize.pair w h =>
      if w ≤ 0 ∨ h ≤ 0 then Except.error Err.invalidParameter
      else Except.ok (w * h / 1000000)

/-- `water_mask.astype(bool)`.  Out-of-bounds entries of the function
representation are normalised to `false` (a numpy array has none). -/
def boolGrid (g : Grid FVal) : Grid Bool :=
  ⟨g.H, g.W, fun i j => decide (i < g.H) && decide (j < g.W) && FVal.toBool (g.data i j)⟩

/-- Number of `True` pixels; this is what `farq.utils.sum` (i.e. `np.nansum`)
returns on a non-empty boolean mask, where the all-NaN check is vacuous. -/
def countTrue (m : Grid Bool) : Nat :=
  (Grid.cells m.H m.W).countP (fun c => m.data c.1 c.2)

structure WSRes where
  total_area : ℚ
  coverage_percent : ℚ
deriving DecidableEq, Repr

/-- `farq.analysis.water_stats`. -/
def water_stats (water_mask : Grid FVal)
    (pixel_size : PixelSize := PixelSize.scalar 30) : Except Err WSRes := do
  if water_mask.size = 0 then
    throw Err.invalidInput
  let pixel_area ← pixelArea pixel_size
  let mask := boolGrid water_mask
  let total_pixels := countTrue mask
  return ⟨total_pixels * pixel_area,
          (total_pixels : ℚ) / (water_mask.size : ℚ) * 100⟩

structure WCRes where
  gained_area : ℚ
  lost_area : ℚ
  net_change : ℚ
  change_percent : FVal
deriving DecidableEq, Repr

/-- `farq.analysis.water_change`. -/
def water_change (mask1 mask2 : Grid FVal)
    (pixel_size : PixelSize := PixelSize.scalar 30) : Except Err WCRes := do
  if ¬(mask1.H = mask2.H ∧ mask1.W = mask2.W) then
    throw Err.shapeMismatch
  if mask1.size = 0 ∨ mask2.size = 0 then
    throw Err.invalidInput
  let pixel_area ← pixelArea pixel_size
  let m1 := boolGrid mask1
  let m2 := boolGrid mask2
  let gained := Grid.map2 (fun a b => !a && b) m1 m2
  let lost := Grid.map2 (fun a b => a && !b) m1 m2
  let gained_area := (countTrue gained : ℚ) * pixel_area
  let lost_area := (countTrue lost : ℚ) * pixel_area
  let net_change := gained_area - lost_area
  let original_area := (countTrue m1 : ℚ) * pixel_area
  let change_percent : FVal :=
    if 0 < original_area then FVal.fin (net_change / original_area * 100)
    else if 0 < gained_area then FVal.inf else FVal.fin 0
  return ⟨gained_area, lost_area, net_change, change_percent⟩

/-!
`scipy.ndimage.label` with the default structuring element: 4-connectivity,
background 0, features numbered `1..n` in row-major order of each feature's
first pixel.  The embedding computes, for every `True` pixel, the minimal
row-major key reachable through `True` pixels (by `H*W` rounds of min-label
propagation — enough, since a shortest path has fewer than `H*W` steps), and
then ranks the distinct minima in increasing order.
-/

/-- Row-major key of a cell. -/
def key (W : Nat) (c : Nat × Nat) : Nat := c.1 * W + c.2

/-- The 4-neighbours of a cell (those that exist in ℕ × ℕ). -/
def nbrs (c : Nat × Nat) : List (Nat × Nat) :=
  [(c.1 + 1, c.2), (c.1, c.2 + 1)]
    ++ (if c.1 = 0 then [] else [(c.1 - 1, c.2)])
    ++ (if c.2 = 0 then [] else [(c.1, c.2 - 1)])

/-- In-bounds `True` pixel. -/
def inB (m : Grid Bool) (c : Nat × Nat) : Bool :=
  decide (c.1 < m.H) && decide (c.2 < m.W) && m.data c.1 c.2

/-- Value at a cell of a label table (out-of-range reads give 0; they are
never consulted for `True` pixels). -/
def tget (t : List (List Nat)) (c : Nat × Nat) : Nat :=
  (t.getD c.1 []).getD c.2 0

/-- Initial table: every `True` pixel starts at its own key. -/
def tbl0 (m : Grid Bool) : List (List Nat) :=
  (List.range m.H).map (fun i => (List.range m.W).map (fun j =>
    if inB m (i, j) then key m.W (i, j) else 0))

/-- One propagation round: every `True` pixel takes the minimum of its own
value and its `True` 4-neighbours' values. -/
def stepT (m : Grid Bool) (t : List (List Nat)) : List (List Nat) :=
  (List.range m.H).map (fun i => (List.range m.W).map (fun j =>
    if inB m (i, j) then
      ((nbrs (i, j)).filter (inB m)).foldl (fun acc d => Nat.min acc (tget t d))
        (tget t (i, j))
    else 0))

def tblIter (m : Grid Bool) : Nat → List (List Nat)
  | 0 => tbl0 m
  | k + 1 => stepT m (tblIter m k)

/-- Minimal key reachable from a cell through `True` pixels. -/
def minkey (m : Grid Bool) (c : Nat × Nat) : Nat :=
  tget (tblIter m (m.H * m.W)) c

/-- The `True` pixels in row-major order. -/
def trueCells (m : Grid Bool) : List (Nat × Nat) :=
  (Grid.cells m.H m.W).filter (inB m)

/-- Component minima of all `True` pixels (with multiplicity). -/
def compVals (m : Grid Bool) : List Nat :=
  (trueCells m).map (minkey m)

/-- `num_features` of `ndimage.label`: the number of distinct components. -/
def num_features (m : Grid Bool) : Nat := (compVals m).dedup.length

/-- Label of a cell: background 0, else 1 plus the number of components whose
minimum precedes this one's in scan order. -/
def labelAt (m : Grid Bool) (c : Nat × Nat) : Nat :=
  if inB m c then
    1 + ((compVals m).filter (fun v => v < minkey m c)).dedup.length
  else 0

def labelGrid (m : Grid Bool) : Grid Nat :=
  ⟨m.H, m.W, fun i j => labelAt m (i, j)⟩

/-- `np.bincount(labeled_mask.ravel())[1:]`: pixel counts of labels `1..n`. -/
def areaCounts (m : Grid Bool) : List Nat :=
  (List.range (num_features m)).map (fun k =>
    (Grid.cells m.H m.W).countP (fun c => labelAt m c = k + 1))

/-- `farq.analysis.get_water_bodies`.  The areas dictionary of the `min_area`
branch reproduces the source exactly: `{i: areas[i-1] * pixel_area}` with `i`
the NEW label — i.e. indexed by position among the new labels, not by the
surviving original label. -/
def get_water_bodies (water_mask : Grid FVal)
    (pixel_size : PixelSize := PixelSize.scalar 30)
    (min_area : Option ℚ := none) :
    Except Err (Grid Nat × List (Nat × ℚ)) := do
  if water_mask.size = 0 then
    throw Err.invalidInput
  let pixel_area ← pixelArea pixel_size
  let mask := boolGrid water_mask
  let labeled_mask := labelGrid mask
  let n := num_features mask
  let areas := areaCounts mask
  match min_area with
  | some ma =>
      let min_pixels : ℚ := ma / (pixel_area * 1000000)
      let valid_labels : List Nat :=
        ((List.range n).filter (fun k => min_pixels ≤ ((areas.getD k 0 : Nat) : ℚ))).map
          (· + 1)
      let label_map : Nat → Nat := fun l =>
        match valid_labels.findIdx? (fun v => v == l) with
        | some idx => idx + 1
        | none => 0
      let relabeled := Grid.map label_map labeled_mask
      let areas_dict := (List.range valid_labels.length).map (fun k =>
        (k + 1, ((areas.getD k 0 : Nat) : ℚ) * pixel_area))
      return (relabeled, areas_dict)
  | none =>
      return (labeled_mask, (List.range n).map (fun k =>
        (k + 1, ((areas.getD k 0 : Nat) : ℚ) * pixel_area)))

end Analysis

/-! ### Helper lemmas -/

@[simp]
lemma ok_bind {α β : Type} (x : α) (f : α → Except Err β) :
    (Except.ok x : Except Err α) >>= f = f x := rfl

@[simp]
lemma error_bind {α β : Type} (e : Err) (f : α → Except Err β) :
    (Except.error e : Except Err α) >>= f = Except.error e := rfl

lemma Grid.toND_size (g : Grid FVal) : g.toND.size = g.size := by
  simp [Grid.toND, NDArr.size, Grid.size, List.prod_cons]

lemma Grid.toND_shape (g : Grid FVal) : g.toND.shape = [g.H, g.W] := rfl

/-- `validate_bands` succeeds exactly on a non-empty list of non-empty bands
of one common shape (and this is the amended content of the validator
contract: the 2-D check claimed by the specification does not exist). -/
lemma validate_bands_ok_iff (bands : List NDArr) :
    Farq.Indices.validate_bands bands = Except.ok () ↔
      (bands ≠ [] ∧ ∀ b ∈ bands, b.size ≠ 0 ∧
        b.shape = (bands.headD ⟨[], fun _ => FVal.fin 0⟩).shape) := by
  unfold Farq.Indices.validate_bands
  split_ifs with h1 h2 h3
  · simp only [List.isEmpty_iff] at h1
    simp [h1]
  · simp only [List.any_eq_true, decide_eq_true_eq] at h2
    obtain ⟨b, hb, hbs⟩ := h2
    constructor
    · intro h; cases h
    · rintro ⟨-, hall⟩
      exact absurd hbs (hall b hb).1
  · simp only [List.any_eq_true, decide_eq_true_eq] at h3
    obtain ⟨b, hb, hbs⟩ := h3
    constructor
    · intro h; cases h
    · rintro ⟨-, hall⟩
      exact absurd (hall b hb).2 hbs
  · simp only [List.isEmpty_iff] at h1
    constructor
    · intro _
      refine ⟨h1, fun b hb => ⟨fun hs => h2 ?_, ?_⟩⟩
      · simp only [List.any_eq_true, decide_eq_true_eq]
        exact ⟨b, hb, hs⟩
      · by_contra hne
        apply h3
        simp only [List.any_eq_true, decide_eq_true_eq]
        exact ⟨b, hb, hne⟩
    · intro _
      rfl

lemma validate_two_ok (a b : Grid FVal) (hH : b.H = a.H) (hW : b.W = a.W)
    (hs : a.size ≠ 0) :
    Farq.Indices.validate_bands [a.toND, b.toND] = Except.ok () := by
  rw [validate_bands_ok_iff]
  refine ⟨by simp, ?_⟩
  intro c hc
  have hbsz : b.size ≠ 0 := by simpa [Grid.size, hH, hW] using hs
  rcases List.mem_cons.1 hc with h | h
  · subst h; simpa [Grid.toND_size] using hs
  · rcases List.mem_cons.1 h with h | h
    · subst h
      constructor
      · simpa [Grid.toND_size] using hbsz
      · simp [Grid.toND_shape, hH, hW]
    · cases h

lemma validate_three_ok (a b c : Grid FVal) (hbH : b.H = a.H) (hbW : b.W = a.W)
    (hcH : c.H = a.H) (hcW : c.W = a.W) (hs : a.size ≠ 0) :
    Farq.Indices.validate_bands [a.toND, b.toND, c.toND] = Except.ok () := by
  rw [validate_bands_ok_iff]
  refine ⟨by simp, ?_⟩
  intro d hd
  have hbsz : b.size ≠ 0 := by simpa [Grid.size, hbH, hbW] using hs
  have hcsz : c.size ≠ 0 := by simpa [Grid.size, hcH, hcW] using hs
  rcases List.mem_cons.1 hd with h | h
  · subst h; simpa [Grid.toND_size] using hs
  · rcases List.mem_cons.1 h with h | h
    · subst h
      exact ⟨by simpa [Grid.toND_size] using hbsz, by simp [Grid.toND_shape, hbH, hbW]⟩
    · rcases List.mem_cons.1 h with h | h
      · subst h
        exact ⟨by simpa [Grid.toND_size] using hcsz, by simp [Grid.toND_shape, hcH, hcW]⟩
      · cases h

/-- Every entry of an index array produced with the NaN-substitution
convention is a finite value in `[-1, 1]`. -/
def BoundedGrid (g : Grid FVal) : Prop :=
  ∀ i j : Nat, ∃ q : ℚ, g.data i j = FVal.fin q ∧ -1 ≤ q ∧ q ≤ 1

lemma clip1_nanToNum_bounded (v : FVal) :
    ∃ q : ℚ, FVal.clip1 (FVal.nanToNum v) = FVal.fin q ∧ -1 ≤ q ∧ q ≤ 1 := by
  have hq : ∀ q : ℚ, -1 ≤ max (-1 : ℚ) (min 1 q) ∧ max (-1 : ℚ) (min 1 q) ≤ 1 := by
    intro q
    refine ⟨le_max_left _ _, max_le (by norm_num) (min_le_left _ _)⟩
  cases v with
  | fin q => exact ⟨max (-1) (min 1 q), rfl, (hq q).1, (hq q).2⟩
  | nan => exact ⟨max (-1) (min 1 0), rfl, (hq 0).1, (hq 0).2⟩
  | inf => exact ⟨max (-1) (min 1 0), rfl, (hq 0).1, (hq 0).2⟩
  | ninf => exact ⟨max (-1) (min 1 0), rfl, (hq 0).1, (hq 0).2⟩

@[simp]
lemma throw_eq {α : Type} (e : Err) : (throw e : Except Err α) = Except.error e := rfl

@[simp]
lemma pure_eq {α : Type} (x : α) : (pure x : Except Err α) = Except.ok x := rfl

end Farq

namespace Farq

lemma clip1_zero : FVal.clip1 (FVal.fin 0) = FVal.fin 0 := by
  norm_num [FVal.clip1]

/-- Dividing anything by an exact zero gives NaN or ±inf, all of which the
NaN-substitution convention turns into 0 before clipping. -/
lemma clip1_nanToNum_div_zero (v : FVal) :
    FVal.clip1 (FVal.nanToNum (FVal.div v (FVal.fin 0))) = FVal.fin 0 := by
  cases v with
  | fin q =>
      simp only [FVal.div]
      split_ifs <;> simp [FVal.nanToNum, clip1_zero]
  | nan => simp [FVal.div, FVal.nanToNum, clip1_zero]
  | inf => simp [FVal.div, FVal.nanToNum, clip1_zero]
  | ninf => simp [FVal.div, FVal.nanToNum, clip1_zero]

end Farq

/-! ### Claim C5 -/

/-- C5 counterexample: a single 1-D band of shape `[3]` — an array that is not
2-dimensional — passes `validate_bands` without an error, refuting the
claim's "for every band argument that is an array but not 2-dimensional,
validate_bands raises". -/
theorem C5_counterexample :
    Farq.Indices.validate_bands [⟨[3], fun _ => FVal.fin 0⟩] = Except.ok () := rfl

/-- C5 (amended): `validate_bands` fails — always with the InvalidInputKind
error — exactly when no bands are given, some band has zero elements, or the
bands' shapes are not all identical; the dimensionality of the bands is never
checked, so a non-2D band whose shape matches the others passes. -/
theorem C5_theorem (bands : List NDArr) :
    (Farq.Indices.validate_bands bands = Except.ok () ∨
      Farq.Indices.validate_bands bands = Except.error Err.invalidInput) ∧
    (Farq.Indices.validate_bands bands = Except.ok () ↔
      (bands ≠ [] ∧ ∀ b ∈ bands, b.size ≠ 0 ∧
        b.shape = (bands.headD ⟨[], fun _ => FVal.fin 0⟩).shape)) := by
  constructor
  · unfold Farq.Indices.validate_bands
    split_ifs <;> simp
  · exact Farq.validate_bands_ok_iff bands

/-! ### Claim C9 -/

/-- C9: for valid same-shaped bands, `savi` fails with the
InvalidParameterKind error when the soil correction factor `L` lies outside
`[0, 1]`, and for `L` inside `[0, 1]` succeeds with the clipped
`((NIR - Red) / (NIR + Red + L)) * (1 + L)` array (NaN/Inf normalised to 0
per the library-wide convention). -/
theorem C9_theorem (nir red : Grid FVal) (L : ℚ)
    (hH : red.H = nir.H) (hW : red.W = nir.W) (hs : nir.size ≠ 0) :
    (¬(0 ≤ L ∧ L ≤ 1) →
      Farq.Indices.savi nir red L = Except.error Err.invalidParameter) ∧
    ((0 ≤ L ∧ L ≤ 1) →
      Farq.Indices.savi nir red L = Except.ok
        ⟨nir.H, nir.W, fun i j =>
          FVal.clip1 (FVal.nanToNum (FVal.mul
            (FVal.div (FVal.sub (nir.data i j) (red.data i j))
              (FVal.add (FVal.add (nir.data i j) (red.data i j)) (FVal.fin L)))
            (FVal.fin (1 + L))))⟩) := by
  have hv := Farq.validate_two_ok nir red hH hW hs
  unfold Farq.Indices.savi
  rw [hv]
  constructor
  · intro h
    simp [h]
  · intro h
    simp [h]

/-- C9 witness: concrete 1×1 bands; `L = 2` is rejected with the parameter
error while `L = 1/2` succeeds. -/
theorem C9_witness :
    Farq.Indices.savi ⟨1, 1, fun _ _ => FVal.fin 2⟩ ⟨1, 1, fun _ _ => FVal.fin 1⟩ 2
      = Except.error Err.invalidParameter ∧
    ∃ out, Farq.Indices.savi ⟨1, 1, fun _ _ => FVal.fin 2⟩
      ⟨1, 1, fun _ _ => FVal.fin 1⟩ (1/2) = Except.ok out :=
  ⟨(C9_theorem ⟨1, 1, fun _ _ => FVal.fin 2⟩ ⟨1, 1, fun _ _ => FVal.fin 1⟩ 2
      rfl rfl (by decide)).1 (by norm_num),
   ⟨_, (C9_theorem ⟨1, 1, fun _ _ => FVal.fin 2⟩ ⟨1, 1, fun _ _ => FVal.fin 1⟩ (1/2)
      rfl rfl (by decide)).2 (by norm_num)⟩⟩

/-! ### Claim C1 -/

/-- C1 counterexample: the epsilon-convention `evi` of `farq.core` applies no
NaN substitution, so at `nir = red = blue = 2` (with the default
coefficients) the denominator `2 + 6·2 - 7.5·2 + 1` is zero while the
numerator is zero, and the output pixel is NaN — refuting the claim that no
element of any index function's output is NaN. -/
theorem C1_counterexample :
    (Farq.Core.evi ⟨1, 1, fun _ _ => FVal.fin 2⟩ ⟨1, 1, fun _ _ => FVal.fin 2⟩
      ⟨1, 1, fun _ _ => FVal.fin 2⟩ (5/2) 6 (15/2) 1).data 0 0 = FVal.nan := by
  with_unfolding_all rfl

/-- C1 (amended): the index functions that apply the NaN-substitution
convention (`farq.indices`: ndvi, ndwi, savi, evi, with parameters passing
their validation) return an array of the same shape as their inputs whose
every element is a finite value in `[-1, 1]`; the epsilon-convention
functions of `farq.core` clip infinities but can return NaN when numerator
and denominator vanish simultaneously. -/
theorem C1_theorem (a b c : Grid FVal) (L G C1c C2c Le : ℚ)
    (hbH : b.H = a.H) (hbW : b.W = a.W) (hcH : c.H = a.H) (hcW : c.W = a.W)
    (hs : a.size ≠ 0) (hL : 0 ≤ L ∧ L ≤ 1) (hLe : 0 ≤ Le) (hG : 0 < G) :
    (∃ g, Farq.Indices.ndvi a b = Except.ok g ∧
      g.H = a.H ∧ g.W = a.W ∧ Farq.BoundedGrid g) ∧
    (∃ g, Farq.Indices.ndwi a b = Except.ok g ∧
      g.H = a.H ∧ g.W = a.W ∧ Farq.BoundedGrid g) ∧
    (∃ g, Farq.Indices.savi a b L = Except.ok g ∧
      g.H = a.H ∧ g.W = a.W ∧ Farq.BoundedGrid g) ∧
    (∃ g, Farq.Indices.evi a b c G C1c C2c Le = Except.ok g ∧
      g.H = a.H ∧ g.W = a.W ∧ Farq.BoundedGrid g) := by
  have hv2 := Farq.validate_two_ok a b hbH hbW hs
  have hv3 := Farq.validate_three_ok a b c hbH hbW hcH hcW hs
  have assemble : ∀ {f : Except Err (Grid FVal)} {F : Nat → Nat → FVal},
      f = Except.ok ⟨a.H, a.W, fun i j => FVal.clip1 (FVal.nanToNum (F i j))⟩ →
      ∃ g, f = Except.ok g ∧ g.H = a.H ∧ g.W = a.W ∧ Farq.BoundedGrid g :=
    fun {f F} hok => ⟨_, hok, rfl, rfl, fun i j => Farq.clip1_nanToNum_bounded (F i j)⟩
  refine ⟨?_, ?_, ?_, ?_⟩
  · apply assemble
    unfold Farq.Indices.ndvi
    rw [hv2]
    rfl
  · apply assemble
    unfold Farq.Indices.ndwi
    rw [hv2]
    rfl
  · apply assemble
    unfold Farq.Indices.savi
    rw [hv2, Farq.ok_bind, if_neg (not_not_intro hL)]
    rfl
  · apply assemble
    unfold Farq.Indices.evi
    rw [hv3, Farq.ok_bind, if_neg (not_lt.2 hLe), Farq.pure_eq, Farq.ok_bind,
      if_neg (not_le.2 hG)]
    rfl

/-- C1 witness: the amended claim at concrete 1×1 bands with the default
parameters. -/
theorem C1_witness :
    (∃ g, Farq.Indices.ndvi ⟨1, 1, fun _ _ => FVal.fin 2⟩ ⟨1, 1, fun _ _ => FVal.fin 3⟩
      = Except.ok g ∧ g.H = 1 ∧ g.W = 1 ∧ Farq.BoundedGrid g) ∧
    (∃ g, Farq.Indices.ndwi ⟨1, 1, fun _ _ => FVal.fin 2⟩ ⟨1, 1, fun _ _ => FVal.fin 3⟩
      = Except.ok g ∧ g.H = 1 ∧ g.W = 1 ∧ Farq.BoundedGrid g) ∧
    (∃ g, Farq.Indices.savi ⟨1, 1, fun _ _ => FVal.fin 2⟩ ⟨1, 1, fun _ _ => FVal.fin 3⟩ (1/2)
      = Except.ok g ∧ g.H = 1 ∧ g.W = 1 ∧ Farq.BoundedGrid g) ∧
    (∃ g, Farq.Indices.evi ⟨1, 1, fun _ _ => FVal.fin 2⟩ ⟨1, 1, fun _ _ => FVal.fin 3⟩
      ⟨1, 1, fun _ _ => FVal.fin 4⟩ (5/2) 6 (15/2) 1
      = Except.ok g ∧ g.H = 1 ∧ g.W = 1 ∧ Farq.BoundedGrid g) :=
  C1_theorem ⟨1, 1, fun _ _ => FVal.fin 2⟩ ⟨1, 1, fun _ _ => FVal.fin 3⟩
    ⟨1, 1, fun _ _ => FVal.fin 4⟩ (1/2) (5/2) 6 (15/2) 1
    rfl rfl rfl rfl (by decide) (by norm_num) (by norm_num) (by norm_num)

/-! ### Claim C3 -/

/-- C3 counterexample: at green = 1, nir = -1 the pixel sum is zero, yet the
epsilon-convention `ndwi` of `farq.core` yields `(1 - (-1)) / (0 + 1e-10) =
2·10¹⁰`, clipped to 1 — not the 0 the claim requires of both conventions at a
zero-sum pixel. -/
theorem C3_counterexample :
    FVal.add (FVal.fin 1) (FVal.fin (-1)) = FVal.fin 0 ∧
    (Farq.Core.ndwi ⟨1, 1, fun _ _ => FVal.fin 1⟩
      ⟨1, 1, fun _ _ => FVal.fin (-1)⟩).data 0 0 = FVal.fin 1 := by
  constructor
  · with_unfolding_all rfl
  · with_unfolding_all rfl

/-- C3 (amended): at a pixel where the band sum is zero the NaN-substitution
convention (`farq.indices.ndwi`) yields 0, and its output never carries
NaN/Inf; the epsilon convention (`farq.core._normalize`) yields 0 at such a
pixel when both bands are 0 there (with `A ≠ B` it instead clips
`(A-B)/1e-10` into `±1`, and at `A = B = -ε/2` it emits NaN). -/
theorem C3_theorem (a b : Grid FVal)
    (hH : b.H = a.H) (hW : b.W = a.W) (hs : a.size ≠ 0) :
    ∃ g, Farq.Indices.ndwi a b = Except.ok g ∧
      (∀ i j, FVal.add (a.data i j) (b.data i j) = FVal.fin 0 →
        g.data i j = FVal.fin 0) ∧
      (∀ i j, ∃ q, g.data i j = FVal.fin q) ∧
      (∀ i j, a.data i j = FVal.fin 0 → b.data i j = FVal.fin 0 →
        (Farq.Core.ndwi a b).data i j = FVal.fin 0) := by
  have hv := Farq.validate_two_ok a b hH hW hs
  have hok : Farq.Indices.ndwi a b = Except.ok
      ⟨a.H, a.W, fun i j => FVal.clip1 (FVal.nanToNum
        (FVal.div (FVal.sub (a.data i j) (b.data i j))
          (FVal.add (a.data i j) (b.data i j))))⟩ := by
    unfold Farq.Indices.ndwi
    rw [hv]
    rfl
  refine ⟨_, hok, ?_, ?_, ?_⟩
  · intro i j hsum
    show FVal.clip1 (FVal.nanToNum _) = _
    rw [hsum]
    exact Farq.clip1_nanToNum_div_zero _
  · intro i j
    obtain ⟨q, hq, -, -⟩ := Farq.clip1_nanToNum_bounded
      (FVal.div (FVal.sub (a.data i j) (b.data i j))
        (FVal.add (a.data i j) (b.data i j)))
    exact ⟨q, hq⟩
  · intro i j ha hb
    show FVal.clip1 _ = _
    rw [show (Farq.Core._normalize a b).data i j =
        FVal.div (FVal.sub (a.data i j) (b.data i j))
          (FVal.add (FVal.add (a.data i j) (b.data i j))
            (FVal.fin (1 / 10000000000))) from rfl, ha, hb]
    norm_num [FVal.sub, FVal.neg, FVal.add, FVal.div, Farq.clip1_zero]

/-- C3 witness: on the 1×1 bands green = 1, nir = -1 (a zero-sum pixel) the
NaN-substitution `ndwi` returns the all-zero array. -/
theorem C3_witness :
    ∃ g, Farq.Indices.ndwi ⟨1, 1, fun _ _ => FVal.fin 1⟩
      ⟨1, 1, fun _ _ => FVal.fin (-1)⟩ = Except.ok g ∧
      g.data 0 0 = FVal.fin 0 := by
  obtain ⟨g, hok, hzero, -, -⟩ := C3_theorem ⟨1, 1, fun _ _ => FVal.fin 1⟩
    ⟨1, 1, fun _ _ => FVal.fin (-1)⟩ rfl rfl (by decide)
  exact ⟨g, hok, hzero 0 0 (by with_unfolding_all rfl)⟩

/-! ### Claim C8 -/

/-- C8 counterexample: under the epsilon convention, `ndwi(x, x)` at the
pixel value `x = -ε/2 = -1/(2·10¹⁰)` computes `0/0 = NaN`, which the core
module does not substitute — so `index(A, A)` is not all-zero for every array
under both implementations. -/
theorem C8_counterexample :
    (Farq.Core.ndwi ⟨1, 1, fun _ _ => FVal.fin (-(1 / 20000000000))⟩
      ⟨1, 1, fun _ _ => FVal.fin (-(1 / 20000000000))⟩).data 0 0 = FVal.nan := by
  with_unfolding_all rfl

/-- C8 (amended): `NDWI(x, x)` is all-zero for every array under the
NaN-substitution convention; under the epsilon convention it is zero at every
pixel holding a finite value `q` with `2q + ε ≠ 0` (at `q = -ε/2` it is NaN). -/
theorem C8_theorem (x : Grid FVal) (hs : x.size ≠ 0) :
    (∃ g, Farq.Indices.ndwi x x = Except.ok g ∧
      ∀ i j, g.data i j = FVal.fin 0) ∧
    (∀ i j q, x.data i j = FVal.fin q → q + q + 1 / 10000000000 ≠ 0 →
      (Farq.Core.ndwi x x).data i j = FVal.fin 0) := by
  constructor
  · have hv := Farq.validate_two_ok x x rfl rfl hs
    have hok : Farq.Indices.ndwi x x = Except.ok
        ⟨x.H, x.W, fun i j => FVal.clip1 (FVal.nanToNum
          (FVal.div (FVal.sub (x.data i j) (x.data i j))
            (FVal.add (x.data i j) (x.data i j))))⟩ := by
      unfold Farq.Indices.ndwi
      rw [hv]
      rfl
    refine ⟨_, hok, ?_⟩
    intro i j
    show FVal.clip1 (FVal.nanToNum _) = _
    cases hxv : x.data i j with
    | fin q =>
        by_cases h2q : q + q = 0
        · simp [FVal.sub, FVal.neg, FVal.add, FVal.div, h2q, FVal.nanToNum,
            Farq.clip1_zero]
        · simp [FVal.sub, FVal.neg, FVal.add, FVal.div, h2q, FVal.nanToNum,
            Farq.clip1_zero]
    | nan => simp [FVal.sub, FVal.neg, FVal.add, FVal.div, FVal.nanToNum,
        Farq.clip1_zero]
    | inf => simp [FVal.sub, FVal.neg, FVal.add, FVal.div, FVal.nanToNum,
        Farq.clip1_zero]
    | ninf => simp [FVal.sub, FVal.neg, FVal.add, FVal.div, FVal.nanToNum,
        Farq.clip1_zero]
  · intro i j q hq hne
    show FVal.clip1 _ = _
    rw [show (Farq.Core._normalize x x).data i j =
        FVal.div (FVal.sub (x.data i j) (x.data i j))
          (FVal.add (FVal.add (x.data i j) (x.data i j))
            (FVal.fin (1 / 10000000000))) from rfl, hq]
    simp only [FVal.sub, FVal.neg, FVal.add, FVal.div]
    rw [if_neg (by simpa [add_assoc] using hne)]
    simp [Farq.clip1_zero, sub_self]

/-- C8 witness: the amended claim at the 1×1 array holding 3. -/
theorem C8_witness :
    (∃ g, Farq.Indices.ndwi ⟨1, 1, fun _ _ => FVal.fin 3⟩
      ⟨1, 1, fun _ _ => FVal.fin 3⟩ = Except.ok g ∧
      ∀ i j, g.data i j = FVal.fin 0) ∧
    (Farq.Core.ndwi ⟨1, 1, fun _ _ => FVal.fin 3⟩
      ⟨1, 1, fun _ _ => FVal.fin 3⟩).data 0 0 = FVal.fin 0 := by
  obtain ⟨h1, h2⟩ := C8_theorem ⟨1, 1, fun _ _ => FVal.fin 3⟩ (by decide)
  exact ⟨h1, h2 0 0 3 rfl (by norm_num)⟩

/-! ### Claim C4 -/

namespace Farq

lemma mem_cells {H W : Nat} {c : Nat × Nat} :
    c ∈ Grid.cells H W ↔ c.1 < H ∧ c.2 < W := by
  obtain ⟨i, j⟩ := c
  simp only [Grid.cells, List.mem_flatMap, List.mem_map, List.mem_range,
    Prod.mk.injEq]
  constructor
  · rintro ⟨x, hx, y, hy, rfl, rfl⟩
    exact ⟨hx, hy⟩
  · rintro ⟨hi, hj⟩
    exact ⟨i, hi, j, hj, rfl, rfl⟩

lemma pixelArea_pos {ps : PixelSize} {pa : ℚ}
    (h : Farq.Analysis.pixelArea ps = Except.ok pa) : 0 < pa := by
  cases ps with
  | scalar p =>
      simp only [Farq.Analysis.pixelArea] at h
      split_ifs at h with hp
      cases h
      push_neg at hp
      exact div_pos (mul_pos hp hp) (by norm_num)
  | pair w h' =>
      simp only [Farq.Analysis.pixelArea] at h
      split_ifs at h with hp
      cases h
      push_neg at hp
      exact div_pos (mul_pos hp.1 hp.2) (by norm_num)

end Farq

/-- C4: for same-shaped non-empty masks and a valid pixel size,
`water_change` returns the gained/lost areas of the pixels in exactly one of
the two masks, their difference as net change, and the percent change
relative to mask1's area — `+∞` when mask1 has zero area but pixels were
gained, `0` when both are zero — without raising. -/
theorem C4_theorem (m1 m2 : Grid FVal) (ps : Farq.PixelSize) (pa : ℚ)
    (hH : m1.H = m2.H) (hW : m1.W = m2.W) (hs : m1.size ≠ 0)
    (hpa : Farq.Analysis.pixelArea ps = Except.ok pa) :
    Farq.Analysis.water_change m1 m2 ps = Except.ok
      (let GA : ℚ := ((Grid.cells m1.H m1.W).countP (fun c =>
          FVal.toBool (m2.data c.1 c.2) && !FVal.toBool (m1.data c.1 c.2)) : ℚ) * pa
       let LA : ℚ := ((Grid.cells m1.H m1.W).countP (fun c =>
          FVal.toBool (m1.data c.1 c.2) && !FVal.toBool (m2.data c.1 c.2)) : ℚ) * pa
       let OA : ℚ := ((Grid.cells m1.H m1.W).countP (fun c =>
          FVal.toBool (m1.data c.1 c.2)) : ℚ) * pa
       { gained_area := GA
         lost_area := LA
         net_change := GA - LA
         change_percent :=
           if OA = 0 then (if 0 < GA then FVal.inf else FVal.fin 0)
           else FVal.fin ((GA - LA) / OA * 100) }) := by
  have hs2 : m2.size ≠ 0 := by
    simpa [Grid.size, ← hH, ← hW] using hs
  have hpapos := Farq.pixelArea_pos hpa
  have hG : Farq.Analysis.countTrue
      (Grid.map2 (fun x y => !x && y) (Farq.Analysis.boolGrid m1)
        (Farq.Analysis.boolGrid m2)) =
      (Grid.cells m1.H m1.W).countP (fun c =>
        FVal.toBool (m2.data c.1 c.2) && !FVal.toBool (m1.data c.1 c.2)) := by
    apply List.countP_congr
    intro c hc
    have h1 : c.1 < m1.H := by
      simpa [Grid.map2, Farq.Analysis.boolGrid] using (Farq.mem_cells.1 hc).1
    have h2 : c.2 < m1.W := by
      simpa [Grid.map2, Farq.Analysis.boolGrid] using (Farq.mem_cells.1 hc).2
    have h1' : c.1 < m2.H := hH ▸ h1
    have h2' : c.2 < m2.W := hW ▸ h2
    simp [Grid.map2, Farq.Analysis.boolGrid, h1, h2, h1', h2']
    tauto
  have hL : Farq.Analysis.countTrue
      (Grid.map2 (fun x y => x && !y) (Farq.Analysis.boolGrid m1)
        (Farq.Analysis.boolGrid m2)) =
      (Grid.cells m1.H m1.W).countP (fun c =>
        FVal.toBool (m1.data c.1 c.2) && !FVal.toBool (m2.data c.1 c.2)) := by
    apply List.countP_congr
    intro c hc
    have h1 : c.1 < m1.H := by
      simpa [Grid.map2, Farq.Analysis.boolGrid] using (Farq.mem_cells.1 hc).1
    have h2 : c.2 < m1.W := by
      simpa [Grid.map2, Farq.Analysis.boolGrid] using (Farq.mem_cells.1 hc).2
    have h1' : c.1 < m2.H := hH ▸ h1
    have h2' : c.2 < m2.W := hW ▸ h2
    simp [Grid.map2, Farq.Analysis.boolGrid, h1, h2, h1', h2']
  have hO : Farq.Analysis.countTrue (Farq.Analysis.boolGrid m1) =
      (Grid.cells m1.H m1.W).countP (fun c => FVal.toBool (m1.data c.1 c.2)) := by
    apply List.countP_congr
    intro c hc
    have h1 : c.1 < m1.H := by
      simpa [Farq.Analysis.boolGrid] using (Farq.mem_cells.1 hc).1
    have h2 : c.2 < m1.W := by
      simpa [Farq.Analysis.boolGrid] using (Farq.mem_cells.1 hc).2
    simp [Farq.Analysis.boolGrid, h1, h2]
  unfold Farq.Analysis.water_change
  rw [if_neg (not_not_intro ⟨hH, hW⟩), if_neg (not_or.mpr ⟨hs, hs2⟩), hpa]
  simp only [Farq.pure_eq, Farq.ok_bind, Except.ok.injEq]
  rw [hG, hL, hO]
  have hOA : (0:ℚ) ≤ ((Grid.cells m1.H m1.W).countP (fun c =>
      FVal.toBool (m1.data c.1 c.2)) : ℚ) * pa :=
    mul_nonneg (Nat.cast_nonneg _) (le_of_lt hpapos)
  rcases eq_or_lt_of_le hOA with h0 | h0
  · rw [← h0]
    simp [lt_irrefl]
  · rw [if_pos h0, if_neg (ne_of_gt h0)]

/-- C4 witness: mask1 empty of water, mask2 a single water pixel, 30 m
pixels: the original area is zero and water was gained, so the percent change
is `+∞` and no error is raised. -/
theorem C4_witness :
    ∃ r, Farq.Analysis.water_change ⟨1, 1, fun _ _ => FVal.fin 0⟩
      ⟨1, 1, fun _ _ => FVal.fin 1⟩ (Farq.PixelSize.scalar 30) = Except.ok r ∧
      r.change_percent = FVal.inf ∧ r.gained_area = 9 / 10000 :=
  ⟨_, C4_theorem ⟨1, 1, fun _ _ => FVal.fin 0⟩ ⟨1, 1, fun _ _ => FVal.fin 1⟩
      (Farq.PixelSize.scalar 30) (9 / 10000) rfl rfl (by decide)
      (by with_unfolding_all rfl),
    by with_unfolding_all rfl, by with_unfolding_all rfl⟩

/-! ### Claim C10 -/

/-- C10: the three analysis functions accept arbitrary numeric masks: they
coerce with `astype(bool)` — under which NaN counts as True — and their
results depend only on the zero/nonzero pattern of the inputs (two inputs of
the same shape and pattern give identical outputs). -/
theorem C10_theorem (a a' b b' : Grid FVal) (ps : Farq.PixelSize) (ma : Option ℚ)
    (haH : a.H = a'.H) (haW : a.W = a'.W) (hbH : b.H = b'.H) (hbW : b.W = b'.W)
    (ha : ∀ i, i < a.H → ∀ j, j < a.W →
      FVal.toBool (a.data i j) = FVal.toBool (a'.data i j))
    (hb : ∀ i, i < b.H → ∀ j, j < b.W →
      FVal.toBool (b.data i j) = FVal.toBool (b'.data i j)) :
    FVal.toBool FVal.nan = true ∧
    Farq.Analysis.water_stats a ps = Farq.Analysis.water_stats a' ps ∧
    Farq.Analysis.water_change a b ps = Farq.Analysis.water_change a' b' ps ∧
    Farq.Analysis.get_water_bodies a ps ma =
      Farq.Analysis.get_water_bodies a' ps ma := by
  have hga : Farq.Analysis.boolGrid a = Farq.Analysis.boolGrid a' := by
    unfold Farq.Analysis.boolGrid
    rw [haH, haW]
    congr 1
    funext i j
    by_cases hi : i < a'.H
    · by_cases hj : j < a'.W
      · have hab := ha i (by rw [haH]; exact hi) j (by rw [haW]; exact hj)
        simp [hi, hj, hab]
      · simp [hj]
    · simp [hi]
  have hgb : Farq.Analysis.boolGrid b = Farq.Analysis.boolGrid b' := by
    unfold Farq.Analysis.boolGrid
    rw [hbH, hbW]
    congr 1
    funext i j
    by_cases hi : i < b'.H
    · by_cases hj : j < b'.W
      · have hab := hb i (by rw [hbH]; exact hi) j (by rw [hbW]; exact hj)
        simp [hi, hj, hab]
      · simp [hj]
    · simp [hi]
  have hsa : a.size = a'.size := by simp [Grid.size, haH, haW]
  have hsb : b.size = b'.size := by simp [Grid.size, hbH, hbW]
  refine ⟨rfl, ?_, ?_, ?_⟩
  · unfold Farq.Analysis.water_stats
    rw [hga, hsa]
  · unfold Farq.Analysis.water_change
    rw [hga, hgb, hsa, hsb, haH, haW, hbH, hbW]
  · unfold Farq.Analysis.get_water_bodies
    rw [hga, hsa]

/-- C10 witness: a 1×1 mask holding NaN and a 1×1 mask holding 5 have the
same nonzero pattern, so all three analysis functions agree on them. -/
theorem C10_witness :
    FVal.toBool FVal.nan = true ∧
    Farq.Analysis.water_stats ⟨1, 1, fun _ _ => FVal.nan⟩
        (Farq.PixelSize.scalar 30) =
      Farq.Analysis.water_stats ⟨1, 1, fun _ _ => FVal.fin 5⟩
        (Farq.PixelSize.scalar 30) ∧
    Farq.Analysis.water_change ⟨1, 1, fun _ _ => FVal.nan⟩
        ⟨1, 1, fun _ _ => FVal.fin 0⟩ (Farq.PixelSize.scalar 30) =
      Farq.Analysis.water_change ⟨1, 1, fun _ _ => FVal.fin 5⟩
        ⟨1, 1, fun _ _ => FVal.fin 0⟩ (Farq.PixelSize.scalar 30) ∧
    Farq.Analysis.get_water_bodies ⟨1, 1, fun _ _ => FVal.nan⟩
        (Farq.PixelSize.scalar 30) none =
      Farq.Analysis.get_water_bodies ⟨1, 1, fun _ _ => FVal.fin 5⟩
        (Farq.PixelSize.scalar 30) none :=
  C10_theorem ⟨1, 1, fun _ _ => FVal.nan⟩ ⟨1, 1, fun _ _ => FVal.fin 5⟩
    ⟨1, 1, fun _ _ => FVal.fin 0⟩ ⟨1, 1, fun _ _ => FVal.fin 0⟩
    (Farq.PixelSize.scalar 30) none rfl rfl rfl rfl (by decide) (by decide)

/-! ### Claim C6 -/

namespace Farq

lemma va_empty (g : Grid FVal) (h : g.size = 0) :
    Farq.Utils.validate_array g = Except.error Err.emptyInput := by
  simp [Farq.Utils.validate_array, h]

lemma va_allnan (g : Grid FVal) (h0 : g.size ≠ 0)
    (h : g.toList.all FVal.isnan = true) :
    Farq.Utils.validate_array g = Except.error Err.allInvalid := by
  simp [Farq.Utils.validate_array, h0, h]

lemma va_ok (g : Grid FVal) (h0 : g.size ≠ 0)
    (h : ¬g.toList.all FVal.isnan = true) :
    Farq.Utils.validate_array g = Except.ok () := by
  simp [Farq.Utils.validate_array, h0, h]

end Farq

/-- C6: the reducers sum/mean/std/min/max fail with EmptyInputKind on a
zero-element array and with AllInvalidKind on an all-NaN array; mean, std,
min and max additionally fail whenever their axis-wise NaN-aware reduction
yields NaN at some index; median, percentile, count_nonzero and unique apply
no all-NaN check and return successfully on all-NaN input. -/
theorem C6_theorem (g : Grid FVal) (ax : Option (Fin 2)) (q : ℚ) :
    (g.size = 0 →
      Farq.Utils.sum g ax = Except.error Err.emptyInput ∧
      Farq.Utils.mean g ax = Except.error Err.emptyInput ∧
      Farq.Utils.std g ax = Except.error Err.emptyInput ∧
      Farq.Utils.min g ax = Except.error Err.emptyInput ∧
      Farq.Utils.max g ax = Except.error Err.emptyInput) ∧
    (g.size ≠ 0 → g.toList.all FVal.isnan = true →
      Farq.Utils.sum g ax = Except.error Err.allInvalid ∧
      Farq.Utils.mean g ax = Except.error Err.allInvalid ∧
      Farq.Utils.std g ax = Except.error Err.allInvalid ∧
      Farq.Utils.min g ax = Except.error Err.allInvalid ∧
      Farq.Utils.max g ax = Except.error Err.allInvalid) ∧
    ((Farq.Utils.applyRed g ax Farq.Utils.nanmeanL).anyNan = true →
      ∃ e, Farq.Utils.mean g ax = Except.error e) ∧
    ((Farq.Utils.applyRed g ax Farq.Utils.nanstdL).anyNan = true →
      ∃ e, Farq.Utils.std g ax = Except.error e) ∧
    ((Farq.Utils.applyRed g ax Farq.Utils.nanminL).anyNan = true →
      ∃ e, Farq.Utils.min g ax = Except.error e) ∧
    ((Farq.Utils.applyRed g ax Farq.Utils.nanmaxL).anyNan = true →
      ∃ e, Farq.Utils.max g ax = Except.error e) ∧
    (g.toList.all FVal.isnan = true →
      (∃ r, Farq.Utils.median g ax = Except.ok r) ∧
      (0 ≤ q → q ≤ 100 → g.size ≠ 0 →
        ∃ r, Farq.Utils.percentile g q = Except.ok r) ∧
      (∃ r, Farq.Utils.count_nonzero g ax = Except.ok r) ∧
      (∃ r, Farq.Utils.unique g = Except.ok r)) := by
  refine ⟨?_, ?_, ?_, ?_, ?_, ?_, ?_⟩
  · intro h
    exact ⟨by simp [Farq.Utils.sum, Farq.va_empty g h],
      by simp [Farq.Utils.mean, Farq.va_empty g h],
      by simp [Farq.Utils.std, Farq.va_empty g h],
      by simp [Farq.Utils.min, Farq.va_empty g h],
      by simp [Farq.Utils.max, Farq.va_empty g h]⟩
  · intro h0 h
    exact ⟨by simp [Farq.Utils.sum, Farq.va_allnan g h0 h],
      by simp [Farq.Utils.mean, Farq.va_allnan g h0 h],
      by simp [Farq.Utils.std, Farq.va_allnan g h0 h],
      by simp [Farq.Utils.min, Farq.va_allnan g h0 h],
      by simp [Farq.Utils.max, Farq.va_allnan g h0 h]⟩
  · intro hnan
    by_cases h0 : g.size = 0
    · exact ⟨Err.emptyInput, by simp [Farq.Utils.mean, Farq.va_empty g h0]⟩
    · by_cases hall : g.toList.all FVal.isnan = true
      · exact ⟨Err.allInvalid, by simp [Farq.Utils.mean, Farq.va_allnan g h0 hall]⟩
      · exact ⟨Err.allInvalid, by simp [Farq.Utils.mean, Farq.va_ok g h0 hall, hnan]⟩
  · intro hnan
    by_cases h0 : g.size = 0
    · exact ⟨Err.emptyInput, by simp [Farq.Utils.std, Farq.va_empty g h0]⟩
    · by_cases hall : g.toList.all FVal.isnan = true
      · exact ⟨Err.allInvalid, by simp [Farq.Utils.std, Farq.va_allnan g h0 hall]⟩
      · exact ⟨Err.allInvalid, by simp [Farq.Utils.std, Farq.va_ok g h0 hall, hnan]⟩
  · intro hnan
    by_cases h0 : g.size = 0
    · exact ⟨Err.emptyInput, by simp [Farq.Utils.min, Farq.va_empty g h0]⟩
    · by_cases hall : g.toList.all FVal.isnan = true
      · exact ⟨Err.allInvalid, by simp [Farq.Utils.min, Farq.va_allnan g h0 hall]⟩
      · exact ⟨Err.allInvalid, by simp [Farq.Utils.min, Farq.va_ok g h0 hall, hnan]⟩
  · intro hnan
    by_cases h0 : g.size = 0
    · exact ⟨Err.emptyInput, by simp [Farq.Utils.max, Farq.va_empty g h0]⟩
    · by_cases hall : g.toList.all FVal.isnan = true
      · exact ⟨Err.allInvalid, by simp [Farq.Utils.max, Farq.va_allnan g h0 hall]⟩
      · exact ⟨Err.allInvalid, by simp [Farq.Utils.max, Farq.va_ok g h0 hall, hnan]⟩
  · intro _
    refine ⟨⟨_, rfl⟩, ?_, ⟨_, rfl⟩, ⟨_, rfl⟩⟩
    intro h1 h2 h3
    have hq : ¬(q < 0 ∨ 100 < q) := not_or.mpr ⟨not_lt.2 h1, not_lt.2 h2⟩
    exact ⟨Farq.Utils.percL g.toList q, by simp [Farq.Utils.percentile, hq, h3]⟩

/-- C6 witness: the claim at a 0×0 array and a 1×1 all-NaN array. -/
theorem C6_witness :
    Farq.Utils.sum ⟨0, 0, fun _ _ => FVal.fin 0⟩ none = Except.error Err.emptyInput ∧
    Farq.Utils.sum ⟨1, 1, fun _ _ => FVal.nan⟩ none = Except.error Err.allInvalid ∧
    (∃ e, Farq.Utils.mean ⟨1, 1, fun _ _ => FVal.nan⟩ none = Except.error e) ∧
    (∃ r, Farq.Utils.median ⟨1, 1, fun _ _ => FVal.nan⟩ none = Except.ok r) ∧
    (∃ r, Farq.Utils.percentile ⟨1, 1, fun _ _ => FVal.nan⟩ 50 = Except.ok r) :=
  ⟨((C6_theorem ⟨0, 0, fun _ _ => FVal.fin 0⟩ none 50).1 (by decide)).1,
   (((C6_theorem ⟨1, 1, fun _ _ => FVal.nan⟩ none 50).2.1) (by decide) (by decide)).1,
   ((C6_theorem ⟨1, 1, fun _ _ => FVal.nan⟩ none 50).2.2.1) (by decide),
   (((C6_theorem ⟨1, 1, fun _ _ => FVal.nan⟩ none 50).2.2.2.2.2.2) (by decide)).1,
   (((C6_theorem ⟨1, 1, fun _ _ => FVal.nan⟩ none 50).2.2.2.2.2.2) (by decide)).2.1
     (by norm_num) (by norm_num) (by decide)⟩

/-! ### Claim C2 -/

/-- C2: the minimum-area path of `get_water_bodies` mis-indexes the area
mapping.  On the 1×5 mask `[1,0,0,1,1]` with 1000 m pixels (pixel area 1 km²)
and `min_area` = 2·10⁶ m² (2 pixels), region 1 (1 pixel) is discarded and
region 2 (2 pixels) survives, correctly renumbered to label 1 — but the
returned mapping is `{1: 1.0}`: `areas[i-1]` indexed by the *new* label
fetches the discarded region's pixel count, while label 1 actually covers 2
pixels (2 km²), contradicting the documented "mapping water body IDs to their
areas". -/
theorem C2_theorem :
    (Farq.Analysis.get_water_bodies
      (Grid.ofRows (FVal.fin 0)
        [[FVal.fin 1, FVal.fin 0, FVal.fin 0, FVal.fin 1, FVal.fin 1]])
      (Farq.PixelSize.scalar 1000) (some 2000000)).map (fun r =>
        (r.2, (Grid.cells 1 5).countP (fun c => r.1.data c.1 c.2 == 1))) =
    Except.ok ([(1, 1)], 2) := by
  with_unfolding_all rfl

/-! ### Claim C7 — connected-component labelling of two separated 2×2 blocks -/

namespace Farq

/-- Membership in the 2×2 block whose top-left corner is `t`. -/
def inBlk (t c : Nat × Nat) : Prop :=
  (c.1 = t.1 ∨ c.1 = t.1 + 1) ∧ (c.2 = t.2 ∨ c.2 = t.2 + 1)

instance (t c : Nat × Nat) : Decidable (inBlk t c) :=
  inferInstanceAs (Decidable (_ ∧ _))

/-- The four cells of the 2×2 block at `t`. -/
def blkCells (t : Nat × Nat) : List (Nat × Nat) :=
  [(t.1, t.2), (t.1, t.2 + 1), (t.1 + 1, t.2), (t.1 + 1, t.2 + 1)]

lemma inBlk_iff_mem {t c : Nat × Nat} : inBlk t c ↔ c ∈ blkCells t := by
  obtain ⟨i, j⟩ := c
  simp only [inBlk, blkCells, List.mem_cons, List.not_mem_nil, or_false,
    Prod.mk.injEq]
  tauto

/-- 4-adjacency of two cells. -/
def adjP (a b : Nat × Nat) : Prop :=
  (a.1 = b.1 ∧ (a.2 + 1 = b.2 ∨ b.2 + 1 = a.2)) ∨
  (a.2 = b.2 ∧ (a.1 + 1 = b.1 ∨ b.1 + 1 = a.1))

instance (a b : Nat × Nat) : Decidable (adjP a b) :=
  inferInstanceAs (Decidable (_ ∨ _))

lemma adjP_symm {a b : Nat × Nat} (h : adjP a b) : adjP b a := by
  rcases h with ⟨h1, h2 | h2⟩ | ⟨h1, h2 | h2⟩
  · exact Or.inl ⟨h1.symm, Or.inr h2⟩
  · exact Or.inl ⟨h1.symm, Or.inl h2⟩
  · exact Or.inr ⟨h1.symm, Or.inr h2⟩
  · exact Or.inr ⟨h1.symm, Or.inl h2⟩

lemma adj_of_mem_nbrs {c d : Nat × Nat} (h : d ∈ Farq.Analysis.nbrs c) :
    adjP c d := by
  obtain ⟨i, j⟩ := c
  unfold Farq.Analysis.nbrs at h
  by_cases hi : i = 0 <;> by_cases hj : j = 0 <;>
    simp only [hi, hj, if_true, if_false, ite_true, ite_false,
      List.append_nil, List.nil_append, List.cons_append, List.append_assoc,
      List.mem_cons, List.not_mem_nil, or_false] at h
  · rcases h with rfl | rfl <;> (dsimp only [adjP]; omega)
  · rcases h with rfl | rfl | rfl <;> (dsimp only [adjP]; omega)
  · rcases h with rfl | rfl | rfl <;> (dsimp only [adjP]; omega)
  · rcases h with rfl | rfl | rfl | rfl <;> (dsimp only [adjP]; omega)

lemma inB_bounds {m : Grid Bool} {c : Nat × Nat}
    (h : Farq.Analysis.inB m c = true) :
    c.1 < m.H ∧ c.2 < m.W ∧ m.data c.1 c.2 = true := by
  have h' : (c.1 < m.H ∧ c.2 < m.W) ∧ m.data c.1 c.2 = true := by
    simpa [Farq.Analysis.inB, Bool.and_eq_true, decide_eq_true_eq,
      and_assoc] using h
  exact ⟨h'.1.1, h'.1.2, h'.2⟩

lemma key_inj {W : Nat} {a b : Nat × Nat} (ha : a.2 < W) (hb : b.2 < W)
    (h : Farq.Analysis.key W a = Farq.Analysis.key W b) : a = b := by
  obtain ⟨i, j⟩ := a
  obtain ⟨k, l⟩ := b
  simp only [Farq.Analysis.key] at h ha hb
  have hW : 0 < W := lt_of_le_of_lt (Nat.zero_le _) ha
  have hj' : (i * W + j) % W = j := by
    rw [Nat.add_comm, Nat.add_mul_mod_self_right, Nat.mod_eq_of_lt ha]
  have hl' : (k * W + l) % W = l := by
    rw [Nat.add_comm, Nat.add_mul_mod_self_right, Nat.mod_eq_of_lt hb]
  have hjl : j = l := by rw [← hj', ← hl', h]
  subst hjl
  have h2 : i * W = k * W := by omega
  have h3 : i = k := Nat.eq_of_mul_eq_mul_right hW h2
  simp [h3]

lemma key_blk_min {W : Nat} {t c : Nat × Nat} (hc : inBlk t c) :
    Farq.Analysis.key W t ≤ Farq.Analysis.key W c := by
  have h1le : t.1 ≤ c.1 := by rcases hc.1 with h | h <;> omega
  have h2le : t.2 ≤ c.2 := by rcases hc.2 with h | h <;> omega
  exact Nat.add_le_add (Nat.mul_le_mul_right W h1le) h2le

lemma mem_trueCells {m : Grid Bool} {c : Nat × Nat} :
    c ∈ Farq.Analysis.trueCells m ↔ Farq.Analysis.inB m c = true := by
  unfold Farq.Analysis.trueCells
  rw [List.mem_filter]
  constructor
  · exact And.right
  · intro h
    obtain ⟨h1, h2, -⟩ := inB_bounds h
    exact ⟨mem_cells.2 ⟨h1, h2⟩, h⟩

lemma tget_mk {H W : Nat} (f : Nat → Nat → Nat) {i j : Nat}
    (hi : i < H) (hj : j < W) :
    Farq.Analysis.tget
      ((List.range H).map (fun i => (List.range W).map (fun j => f i j))) (i, j)
      = f i j := by
  have houter :
      ((List.range H).map (fun i => (List.range W).map (fun j => f i j))).getD
        i [] = (List.range W).map (fun j => f i j) := by
    rw [List.getD_eq_getElem?_getD, List.getElem?_map, List.getElem?_range hi,
      Option.map_some', Option.getD_some]
  show (((List.range H).map (fun i => (List.range W).map (fun j => f i j))).getD
    i []).getD j 0 = f i j
  rw [houter, List.getD_eq_getElem?_getD, List.getElem?_map,
    List.getElem?_range hj, Option.map_some', Option.getD_some]

lemma tget_tbl0 {m : Grid Bool} {c : Nat × Nat}
    (h1 : c.1 < m.H) (h2 : c.2 < m.W) :
    Farq.Analysis.tget (Farq.Analysis.tbl0 m) c =
      if Farq.Analysis.inB m c then Farq.Analysis.key m.W c else 0 := by
  obtain ⟨i, j⟩ := c
  exact tget_mk _ h1 h2

lemma tget_step {m : Grid Bool} (t : List (List Nat)) {c : Nat × Nat}
    (hc : Farq.Analysis.inB m c = true) :
    Farq.Analysis.tget (Farq.Analysis.stepT m t) c =
      ((Farq.Analysis.nbrs c).filter (Farq.Analysis.inB m)).foldl
        (fun acc d => Nat.min acc (Farq.Analysis.tget t d))
        (Farq.Analysis.tget t c) := by
  obtain ⟨h1, h2, -⟩ := inB_bounds hc
  obtain ⟨i, j⟩ := c
  unfold Farq.Analysis.stepT
  rw [tget_mk _ h1 h2, if_pos hc]

lemma foldl_min_le_init {β : Type} (g : β → Nat) :
    ∀ (l : List β) (a : Nat),
      l.foldl (fun acc d => Nat.min acc (g d)) a ≤ a := by
  intro l
  induction l with
  | nil => intro a; exact le_refl a
  | cons x xs ih =>
      intro a
      exact le_trans (ih (Nat.min a (g x))) (Nat.min_le_left _ _)

lemma foldl_min_le_mem {β : Type} (g : β → Nat) {x : β} :
    ∀ (l : List β) (a : Nat), x ∈ l →
      l.foldl (fun acc d => Nat.min acc (g d)) a ≤ g x := by
  intro l
  induction l with
  | nil => intro a h; cases h
  | cons y ys ih =>
      intro a h
      rcases List.mem_cons.1 h with h | h
      · subst h
        exact le_trans (foldl_min_le_init g ys _) (Nat.min_le_right _ _)
      · exact ih _ h

lemma foldl_min_pred {β : Type} (g : β → Nat) (P : Nat → Prop)
    (hP : ∀ x y, P x → P y → P (Nat.min x y)) :
    ∀ (l : List β) (a : Nat), P a → (∀ x ∈ l, P (g x)) →
      P (l.foldl (fun acc d => Nat.min acc (g d)) a) := by
  intro l
  induction l with
  | nil => intro a ha _; exact ha
  | cons y ys ih =>
      intro a ha hmem
      exact ih _ (hP _ _ ha (hmem y (List.mem_cons_self _ _)))
        (fun x hx => hmem x (List.mem_cons_of_mem _ hx))

end Farq

namespace Farq

lemma blk_in_bounds {m : Grid Bool} {tA : Nat × Nat}
    (hbA : tA.1 + 1 < m.H ∧ tA.2 + 1 < m.W) {c : Nat × Nat}
    (hc : inBlk tA c) : c.1 < m.H ∧ c.2 < m.W := by
  obtain ⟨h1, h2⟩ := hc
  omega

lemma step_stays {m : Grid Bool} {tA tB : Nat × Nat}
    (hIn : ∀ c, Farq.Analysis.inB m c = true ↔ inBlk tA c ∨ inBlk tB c)
    (hs : ∀ a ∈ blkCells tA, ∀ b ∈ blkCells tB, ¬adjP a b ∧ a ≠ b)
    {c d : Nat × Nat} (hc : inBlk tA c) (hd : d ∈ Farq.Analysis.nbrs c)
    (hdb : Farq.Analysis.inB m d = true) : inBlk tA d := by
  rcases (hIn d).1 hdb with h | h
  · exact h
  · exact absurd (adj_of_mem_nbrs hd)
      (hs c (inBlk_iff_mem.1 hc) d (inBlk_iff_mem.1 h)).1

lemma tbl_val_in_blk {m : Grid Bool} {tA tB : Nat × Nat}
    (hbA : tA.1 + 1 < m.H ∧ tA.2 + 1 < m.W)
    (hIn : ∀ c, Farq.Analysis.inB m c = true ↔ inBlk tA c ∨ inBlk tB c)
    (hs : ∀ a ∈ blkCells tA, ∀ b ∈ blkCells tB, ¬adjP a b ∧ a ≠ b) :
    ∀ k, ∀ c, inBlk tA c → ∃ d, inBlk tA d ∧
      Farq.Analysis.tget (Farq.Analysis.tblIter m k) c = Farq.Analysis.key m.W d := by
  intro k
  induction k with
  | zero =>
      intro c hc
      obtain ⟨h1, h2⟩ := blk_in_bounds hbA hc
      refine ⟨c, hc, ?_⟩
      rw [show Farq.Analysis.tblIter m 0 = Farq.Analysis.tbl0 m from rfl,
        tget_tbl0 h1 h2, if_pos ((hIn c).2 (Or.inl hc))]
  | succ k ih =>
      intro c hc
      have hcb : Farq.Analysis.inB m c = true := (hIn c).2 (Or.inl hc)
      rw [show Farq.Analysis.tblIter m (k + 1) =
        Farq.Analysis.stepT m (Farq.Analysis.tblIter m k) from rfl,
        tget_step _ hcb]
      apply foldl_min_pred _ (fun v => ∃ d, inBlk tA d ∧ v = Farq.Analysis.key m.W d)
      · rintro x y ⟨dx, hdx, rfl⟩ ⟨dy, hdy, rfl⟩
        by_cases hxy : Farq.Analysis.key m.W dx ≤ Farq.Analysis.key m.W dy
        · refine ⟨dx, hdx, ?_⟩
          show min _ _ = _
          exact min_eq_left hxy
        · refine ⟨dy, hdy, ?_⟩
          show min _ _ = _
          exact min_eq_right (le_of_not_le hxy)
      · exact ih c hc
      · intro x hx
        obtain ⟨hx1, hx2⟩ := List.mem_filter.1 hx
        exact ih x (step_stays hIn hs hc hx1 hx2)

lemma tget_mono_succ {m : Grid Bool} {c : Nat × Nat}
    (hc : Farq.Analysis.inB m c = true) (k : Nat) :
    Farq.Analysis.tget (Farq.Analysis.tblIter m (k + 1)) c ≤
      Farq.Analysis.tget (Farq.Analysis.tblIter m k) c := by
  rw [show Farq.Analysis.tblIter m (k + 1) =
    Farq.Analysis.stepT m (Farq.Analysis.tblIter m k) from rfl, tget_step _ hc]
  exact foldl_min_le_init _ _ _

lemma tget_mono_le {m : Grid Bool} {c : Nat × Nat}
    (hc : Farq.Analysis.inB m c = true) {k k' : Nat} (h : k ≤ k') :
    Farq.Analysis.tget (Farq.Analysis.tblIter m k') c ≤
      Farq.Analysis.tget (Farq.Analysis.tblIter m k) c := by
  induction h with
  | refl => exact le_rfl
  | step h ih => exact le_trans (tget_mono_succ hc _) ih

lemma tget_le_nbr {m : Grid Bool} {c d : Nat × Nat}
    (hc : Farq.Analysis.inB m c = true) (hd : d ∈ Farq.Analysis.nbrs c)
    (hdb : Farq.Analysis.inB m d = true) (k : Nat) :
    Farq.Analysis.tget (Farq.Analysis.tblIter m (k + 1)) c ≤
      Farq.Analysis.tget (Farq.Analysis.tblIter m k) d := by
  rw [show Farq.Analysis.tblIter m (k + 1) =
    Farq.Analysis.stepT m (Farq.Analysis.tblIter m k) from rfl, tget_step _ hc]
  exact foldl_min_le_mem _ _ _ (List.mem_filter.2 ⟨hd, hdb⟩)

lemma blk_val {m : Grid Bool} {tA tB : Nat × Nat}
    (hbA : tA.1 + 1 < m.H ∧ tA.2 + 1 < m.W)
    (hIn : ∀ c, Farq.Analysis.inB m c = true ↔ inBlk tA c ∨ inBlk tB c)
    (hs : ∀ a ∈ blkCells tA, ∀ b ∈ blkCells tB, ¬adjP a b ∧ a ≠ b) :
    ∀ c, inBlk tA c → ∀ k, 2 ≤ k →
      Farq.Analysis.tget (Farq.Analysis.tblIter m k) c = Farq.Analysis.key m.W tA := by
  have htA : inBlk tA tA := ⟨Or.inl rfl, Or.inl rfl⟩
  have hbtA : Farq.Analysis.inB m tA = true := (hIn tA).2 (Or.inl htA)
  have hR' : inBlk tA (tA.1, tA.2 + 1) := ⟨Or.inl rfl, Or.inr rfl⟩
  have hD' : inBlk tA (tA.1 + 1, tA.2) := ⟨Or.inr rfl, Or.inl rfl⟩
  have hX' : inBlk tA (tA.1 + 1, tA.2 + 1) := ⟨Or.inr rfl, Or.inr rfl⟩
  have hbR : Farq.Analysis.inB m (tA.1, tA.2 + 1) = true := (hIn _).2 (Or.inl hR')
  have hbD : Farq.Analysis.inB m (tA.1 + 1, tA.2) = true := (hIn _).2 (Or.inl hD')
  have hbX : Farq.Analysis.inB m (tA.1 + 1, tA.2 + 1) = true := (hIn _).2 (Or.inl hX')
  have h0 : Farq.Analysis.tget (Farq.Analysis.tblIter m 0) tA =
      Farq.Analysis.key m.W tA := by
    rw [show Farq.Analysis.tblIter m 0 = Farq.Analysis.tbl0 m from rfl,
      tget_tbl0 (by omega) (by omega), if_pos hbtA]
  have hmemR : tA ∈ Farq.Analysis.nbrs (tA.1, tA.2 + 1) := by
    unfold Farq.Analysis.nbrs
    simp [Nat.succ_ne_zero]
  have hmemD : tA ∈ Farq.Analysis.nbrs (tA.1 + 1, tA.2) := by
    unfold Farq.Analysis.nbrs
    simp [Nat.succ_ne_zero]
  have hmemX : (tA.1 + 1, tA.2) ∈ Farq.Analysis.nbrs (tA.1 + 1, tA.2 + 1) := by
    unfold Farq.Analysis.nbrs
    simp [Nat.succ_ne_zero]
  have hR : Farq.Analysis.tget (Farq.Analysis.tblIter m 1) (tA.1, tA.2 + 1) ≤
      Farq.Analysis.key m.W tA :=
    le_trans (tget_le_nbr hbR hmemR hbtA 0) (le_of_eq h0)
  have hD : Farq.Analysis.tget (Farq.Analysis.tblIter m 1) (tA.1 + 1, tA.2) ≤
      Farq.Analysis.key m.W tA :=
    le_trans (tget_le_nbr hbD hmemD hbtA 0) (le_of_eq h0)
  have hX : Farq.Analysis.tget (Farq.Analysis.tblIter m 2) (tA.1 + 1, tA.2 + 1) ≤
      Farq.Analysis.key m.W tA :=
    le_trans (tget_le_nbr hbX hmemX hbD 1) hD
  intro c hc k hk
  apply le_antisymm
  · obtain ⟨hc1, hc2⟩ := hc
    obtain ⟨x, y⟩ := c
    simp only at hc1 hc2
    rcases hc1 with rfl | rfl <;> rcases hc2 with rfl | rfl
    · exact le_trans (tget_mono_le hbtA (Nat.zero_le k)) (le_of_eq h0)
    · exact le_trans (tget_mono_le hbR (by omega)) hR
    · exact le_trans (tget_mono_le hbD (by omega)) hD
    · exact le_trans (tget_mono_le hbX hk) hX
  · obtain ⟨d, hd, hval⟩ := tbl_val_in_blk hbA hIn hs k c hc
    rw [hval]
    exact key_blk_min hd

lemma blk_minkey {m : Grid Bool} {tA tB : Nat × Nat}
    (hbA : tA.1 + 1 < m.H ∧ tA.2 + 1 < m.W)
    (hIn : ∀ c, Farq.Analysis.inB m c = true ↔ inBlk tA c ∨ inBlk tB c)
    (hs : ∀ a ∈ blkCells tA, ∀ b ∈ blkCells tB, ¬adjP a b ∧ a ≠ b)
    {c : Nat × Nat} (hc : inBlk tA c) :
    Farq.Analysis.minkey m c = Farq.Analysis.key m.W tA := by
  unfold Farq.Analysis.minkey
  apply blk_val hbA hIn hs c hc
  have hH : 2 ≤ m.H := by omega
  have hW : 1 ≤ m.W := by omega
  calc (2 : Nat) = 2 * 1 := rfl
    _ ≤ m.H * m.W := Nat.mul_le_mul hH hW

end Farq

namespace Farq

lemma self_mem_blkCells (t : Nat × Nat) : t ∈ blkCells t := by
  simp [blkCells]

lemma hIn_swap {m : Grid Bool} {tA tB : Nat × Nat}
    (hIn : ∀ c, Farq.Analysis.inB m c = true ↔ inBlk tA c ∨ inBlk tB c) :
    ∀ c, Farq.Analysis.inB m c = true ↔ inBlk tB c ∨ inBlk tA c :=
  fun c => (hIn c).trans or_comm

lemma hs_swap {tA tB : Nat × Nat}
    (hs : ∀ a ∈ blkCells tA, ∀ b ∈ blkCells tB, ¬adjP a b ∧ a ≠ b) :
    ∀ a ∈ blkCells tB, ∀ b ∈ blkCells tA, ¬adjP a b ∧ a ≠ b :=
  fun a ha b hb =>
    ⟨fun h => (hs b hb a ha).1 (adjP_symm h), fun h => (hs b hb a ha).2 h.symm⟩

lemma compVals_mem {m : Grid Bool} {t1 t2 : Nat × Nat}
    (hb1 : t1.1 + 1 < m.H ∧ t1.2 + 1 < m.W)
    (hb2 : t2.1 + 1 < m.H ∧ t2.2 + 1 < m.W)
    (hIn : ∀ c, Farq.Analysis.inB m c = true ↔ inBlk t1 c ∨ inBlk t2 c)
    (hs : ∀ a ∈ blkCells t1, ∀ b ∈ blkCells t2, ¬adjP a b ∧ a ≠ b) :
    ∀ v ∈ Farq.Analysis.compVals m,
      v = Farq.Analysis.key m.W t1 ∨ v = Farq.Analysis.key m.W t2 := by
  intro v hv
  obtain ⟨c, hc, rfl⟩ := List.mem_map.1 hv
  rcases (hIn c).1 (mem_trueCells.1 hc) with h | h
  · exact Or.inl (blk_minkey hb1 hIn hs h)
  · exact Or.inr (blk_minkey hb2 (hIn_swap hIn) (hs_swap hs) h)

lemma key1_mem_compVals {m : Grid Bool} {t1 t2 : Nat × Nat}
    (hb1 : t1.1 + 1 < m.H ∧ t1.2 + 1 < m.W)
    (hIn : ∀ c, Farq.Analysis.inB m c = true ↔ inBlk t1 c ∨ inBlk t2 c)
    (hs : ∀ a ∈ blkCells t1, ∀ b ∈ blkCells t2, ¬adjP a b ∧ a ≠ b) :
    Farq.Analysis.key m.W t1 ∈ Farq.Analysis.compVals m := by
  have ht : inBlk t1 t1 := ⟨Or.inl rfl, Or.inl rfl⟩
  exact List.mem_map.2 ⟨t1, mem_trueCells.2 ((hIn t1).2 (Or.inl ht)),
    blk_minkey hb1 hIn hs ht⟩

lemma keys_ne {m : Grid Bool} {t1 t2 : Nat × Nat}
    (hb1 : t1.1 + 1 < m.H ∧ t1.2 + 1 < m.W)
    (hb2 : t2.1 + 1 < m.H ∧ t2.2 + 1 < m.W)
    (hs : ∀ a ∈ blkCells t1, ∀ b ∈ blkCells t2, ¬adjP a b ∧ a ≠ b) :
    Farq.Analysis.key m.W t1 ≠ Farq.Analysis.key m.W t2 := by
  intro h
  exact (hs t1 (self_mem_blkCells t1) t2 (self_mem_blkCells t2)).2
    (key_inj (by omega) (by omega) h)

lemma compVals_toFinset {m : Grid Bool} {t1 t2 : Nat × Nat}
    (hb1 : t1.1 + 1 < m.H ∧ t1.2 + 1 < m.W)
    (hb2 : t2.1 + 1 < m.H ∧ t2.2 + 1 < m.W)
    (hIn : ∀ c, Farq.Analysis.inB m c = true ↔ inBlk t1 c ∨ inBlk t2 c)
    (hs : ∀ a ∈ blkCells t1, ∀ b ∈ blkCells t2, ¬adjP a b ∧ a ≠ b) :
    (Farq.Analysis.compVals m).toFinset =
      {Farq.Analysis.key m.W t1, Farq.Analysis.key m.W t2} := by
  ext v
  simp only [List.mem_toFinset, Finset.mem_insert, Finset.mem_singleton]
  constructor
  · exact fun h => compVals_mem hb1 hb2 hIn hs v h
  · rintro (rfl | rfl)
    · exact key1_mem_compVals hb1 hIn hs
    · exact key1_mem_compVals hb2 (hIn_swap hIn) (hs_swap hs)

lemma num_features_two {m : Grid Bool} {t1 t2 : Nat × Nat}
    (hb1 : t1.1 + 1 < m.H ∧ t1.2 + 1 < m.W)
    (hb2 : t2.1 + 1 < m.H ∧ t2.2 + 1 < m.W)
    (hIn : ∀ c, Farq.Analysis.inB m c = true ↔ inBlk t1 c ∨ inBlk t2 c)
    (hs : ∀ a ∈ blkCells t1, ∀ b ∈ blkCells t2, ¬adjP a b ∧ a ≠ b) :
    Farq.Analysis.num_features m = 2 := by
  unfold Farq.Analysis.num_features
  rw [← List.card_toFinset, compVals_toFinset hb1 hb2 hIn hs,
    Finset.card_insert_of_not_mem (by simp [keys_ne hb1 hb2 hs]),
    Finset.card_singleton]

lemma labelAt_out {m : Grid Bool} {c : Nat × Nat}
    (h : Farq.Analysis.inB m c = false) : Farq.Analysis.labelAt m c = 0 := by
  unfold Farq.Analysis.labelAt
  rw [if_neg (by simp [h])]

lemma labelAt_blk1 {m : Grid Bool} {t1 t2 : Nat × Nat}
    (hb1 : t1.1 + 1 < m.H ∧ t1.2 + 1 < m.W)
    (hb2 : t2.1 + 1 < m.H ∧ t2.2 + 1 < m.W)
    (hIn : ∀ c, Farq.Analysis.inB m c = true ↔ inBlk t1 c ∨ inBlk t2 c)
    (hs : ∀ a ∈ blkCells t1, ∀ b ∈ blkCells t2, ¬adjP a b ∧ a ≠ b)
    (hlt : Farq.Analysis.key m.W t1 < Farq.Analysis.key m.W t2)
    {c : Nat × Nat} (hc : inBlk t1 c) : Farq.Analysis.labelAt m c = 1 := by
  unfold Farq.Analysis.labelAt
  rw [if_pos ((hIn c).2 (Or.inl hc)), blk_minkey hb1 hIn hs hc]
  have hfil : (Farq.Analysis.compVals m).filter
      (fun v => v < Farq.Analysis.key m.W t1) = [] := by
    rw [List.filter_eq_nil_iff]
    intro v hv
    rcases compVals_mem hb1 hb2 hIn hs v hv with rfl | rfl <;>
      simp only [decide_eq_true_eq, not_lt] <;> omega
  rw [hfil]
  simp

lemma labelAt_blk2 {m : Grid Bool} {t1 t2 : Nat × Nat}
    (hb1 : t1.1 + 1 < m.H ∧ t1.2 + 1 < m.W)
    (hb2 : t2.1 + 1 < m.H ∧ t2.2 + 1 < m.W)
    (hIn : ∀ c, Farq.Analysis.inB m c = true ↔ inBlk t1 c ∨ inBlk t2 c)
    (hs : ∀ a ∈ blkCells t1, ∀ b ∈ blkCells t2, ¬adjP a b ∧ a ≠ b)
    (hlt : Farq.Analysis.key m.W t1 < Farq.Analysis.key m.W t2)
    {c : Nat × Nat} (hc : inBlk t2 c) : Farq.Analysis.labelAt m c = 2 := by
  unfold Farq.Analysis.labelAt
  rw [if_pos ((hIn c).2 (Or.inr hc)),
    blk_minkey hb2 (hIn_swap hIn) (hs_swap hs) hc]
  have hfin : ((Farq.Analysis.compVals m).filter
      (fun v => v < Farq.Analysis.key m.W t2)).toFinset =
      {Farq.Analysis.key m.W t1} := by
    ext v
    simp only [List.mem_toFinset, List.mem_filter, Finset.mem_singleton,
      decide_eq_true_eq]
    constructor
    · rintro ⟨hv, hlt2⟩
      rcases compVals_mem hb1 hb2 hIn hs v hv with rfl | rfl
      · rfl
      · omega
    · rintro rfl
      exact ⟨key1_mem_compVals hb1 hIn hs, hlt⟩
  rw [← List.card_toFinset, hfin, Finset.card_singleton]

end Farq

namespace Farq

lemma count_pair_aux (c : Nat) : ∀ W : Nat,
    (List.range W).countP (fun j => decide (j = c ∨ j = c + 1)) =
      (if c < W then 1 else 0) + (if c + 1 < W then 1 else 0) := by
  intro W
  induction W with
  | zero => simp
  | succ W ih =>
      rw [List.range_succ, List.countP_append, ih]
      simp only [List.countP_cons, List.countP_nil, decide_eq_true_eq]
      split_ifs <;> omega

lemma sum_pair_aux (r : Nat) : ∀ H : Nat,
    ((List.range H).map (fun i => if i = r ∨ i = r + 1 then 2 else 0)).sum =
      (if r < H then 2 else 0) + (if r + 1 < H then 2 else 0) := by
  intro H
  induction H with
  | zero => simp
  | succ H ih =>
      rw [List.range_succ, List.map_append, List.sum_append, ih]
      simp only [List.map_cons, List.map_nil, List.sum_cons, List.sum_nil]
      split_ifs <;> omega

lemma countP_blk {H W : Nat} {t : Nat × Nat} (h1 : t.1 + 1 < H)
    (h2 : t.2 + 1 < W) :
    (Grid.cells H W).countP (fun c => decide (inBlk t c)) = 4 := by
  unfold Grid.cells
  rw [List.countP_flatMap]
  have hrow : ∀ i ∈ List.range H,
      (List.countP (fun c => decide (inBlk t c)) ∘
        fun i => (List.range W).map (fun j => (i, j))) i =
      if i = t.1 ∨ i = t.1 + 1 then 2 else 0 := by
    intro i _
    simp only [Function.comp_apply]
    rw [List.countP_map]
    by_cases hi : i = t.1 ∨ i = t.1 + 1
    · rw [if_pos hi]
      rw [List.countP_congr (q := fun j => decide (j = t.2 ∨ j = t.2 + 1))
        (fun j _ => by simp [inBlk, hi])]
      rw [count_pair_aux]
      rw [if_pos (by omega), if_pos h2]
    · rw [if_neg hi]
      rw [List.countP_eq_zero.2]
      intro j _
      simp only [Function.comp_apply, decide_eq_true_eq]
      intro hco
      exact hi hco.1
  rw [List.map_congr_left hrow, sum_pair_aux, if_pos (by omega), if_pos h1]

lemma countP_or_disjoint {α : Type} {p q : α → Bool} :
    ∀ l : List α, (∀ a ∈ l, ¬(p a = true ∧ q a = true)) →
      l.countP (fun a => p a || q a) = l.countP p + l.countP q := by
  intro l
  induction l with
  | nil => simp
  | cons x xs ih =>
      intro h
      simp only [List.countP_cons, Bool.or_eq_true]
      rw [ih (fun a ha => h a (List.mem_cons_of_mem _ ha))]
      have hx := h x (List.mem_cons_self _ _)
      by_cases hp : p x = true <;> by_cases hq : q x = true
      · exact absurd ⟨hp, hq⟩ hx
      · simp only [hp, hq]
        simp
        omega
      · simp only [hp, hq]
        simp
        omega
      · simp [hp, hq]

lemma length_cells : ∀ (H : Nat) (W : Nat), (Grid.cells H W).length = H * W := by
  intro H W
  induction H with
  | zero => simp [Grid.cells]
  | succ H ih =>
      unfold Grid.cells at ih ⊢
      rw [List.range_succ, List.flatMap_append, List.length_append, ih]
      simp [Nat.succ_mul]

end Farq

namespace Farq

lemma count_label1 {m : Grid Bool} {t1 t2 : Nat × Nat}
    (hb1 : t1.1 + 1 < m.H ∧ t1.2 + 1 < m.W)
    (hb2 : t2.1 + 1 < m.H ∧ t2.2 + 1 < m.W)
    (hIn : ∀ c, Farq.Analysis.inB m c = true ↔ inBlk t1 c ∨ inBlk t2 c)
    (hs : ∀ a ∈ blkCells t1, ∀ b ∈ blkCells t2, ¬adjP a b ∧ a ≠ b)
    (hlt : Farq.Analysis.key m.W t1 < Farq.Analysis.key m.W t2) :
    (Grid.cells m.H m.W).countP
      (fun c => decide (Farq.Analysis.labelAt m c = 1)) = 4 := by
  have hcg : ∀ c ∈ Grid.cells m.H m.W,
      (decide (Farq.Analysis.labelAt m c = 1) = true ↔
        decide (inBlk t1 c) = true) := by
    intro c _
    simp only [decide_eq_true_eq]
    constructor
    · intro hl
      cases hcb : Farq.Analysis.inB m c with
      | false => rw [labelAt_out hcb] at hl; exact absurd hl (by omega)
      | true =>
          rcases (hIn c).1 hcb with h | h
          · exact h
          · rw [labelAt_blk2 hb1 hb2 hIn hs hlt h] at hl
            exact absurd hl (by omega)
    · exact fun h => labelAt_blk1 hb1 hb2 hIn hs hlt h
  rw [List.countP_congr hcg]
  exact countP_blk hb1.1 hb1.2

lemma count_label2 {m : Grid Bool} {t1 t2 : Nat × Nat}
    (hb1 : t1.1 + 1 < m.H ∧ t1.2 + 1 < m.W)
    (hb2 : t2.1 + 1 < m.H ∧ t2.2 + 1 < m.W)
    (hIn : ∀ c, Farq.Analysis.inB m c = true ↔ inBlk t1 c ∨ inBlk t2 c)
    (hs : ∀ a ∈ blkCells t1, ∀ b ∈ blkCells t2, ¬adjP a b ∧ a ≠ b)
    (hlt : Farq.Analysis.key m.W t1 < Farq.Analysis.key m.W t2) :
    (Grid.cells m.H m.W).countP
      (fun c => decide (Farq.Analysis.labelAt m c = 2)) = 4 := by
  have hcg : ∀ c ∈ Grid.cells m.H m.W,
      (decide (Farq.Analysis.labelAt m c = 2) = true ↔
        decide (inBlk t2 c) = true) := by
    intro c _
    simp only [decide_eq_true_eq]
    constructor
    · intro hl
      cases hcb : Farq.Analysis.inB m c with
      | false => rw [labelAt_out hcb] at hl; exact absurd hl (by omega)
      | true =>
          rcases (hIn c).1 hcb with h | h
          · rw [labelAt_blk1 hb1 hb2 hIn hs hlt h] at hl
            exact absurd hl (by omega)
          · exact h
    · exact fun h => labelAt_blk2 hb1 hb2 hIn hs hlt h
  rw [List.countP_congr hcg]
  exact countP_blk hb2.1 hb2.2

lemma areaCounts_pair {m : Grid Bool} {t1 t2 : Nat × Nat}
    (hb1 : t1.1 + 1 < m.H ∧ t1.2 + 1 < m.W)
    (hb2 : t2.1 + 1 < m.H ∧ t2.2 + 1 < m.W)
    (hIn : ∀ c, Farq.Analysis.inB m c = true ↔ inBlk t1 c ∨ inBlk t2 c)
    (hs : ∀ a ∈ blkCells t1, ∀ b ∈ blkCells t2, ¬adjP a b ∧ a ≠ b)
    (hlt : Farq.Analysis.key m.W t1 < Farq.Analysis.key m.W t2) :
    Farq.Analysis.areaCounts m = [4, 4] := by
  unfold Farq.Analysis.areaCounts
  rw [num_features_two hb1 hb2 hIn hs,
    show List.range 2 = [0, 1] from rfl]
  simp only [List.map_cons, List.map_nil, Nat.zero_add, Nat.reduceAdd]
  rw [count_label1 hb1 hb2 hIn hs hlt, count_label2 hb1 hb2 hIn hs hlt]

lemma exists_false_cell {m : Grid Bool} {t1 t2 : Nat × Nat}
    (hb1 : t1.1 + 1 < m.H ∧ t1.2 + 1 < m.W)
    (hb2 : t2.1 + 1 < m.H ∧ t2.2 + 1 < m.W)
    (hIn : ∀ c, Farq.Analysis.inB m c = true ↔ inBlk t1 c ∨ inBlk t2 c)
    (hs : ∀ a ∈ blkCells t1, ∀ b ∈ blkCells t2, ¬adjP a b ∧ a ≠ b) :
    ∃ c : Nat × Nat, c.1 < m.H ∧ c.2 < m.W ∧
      Farq.Analysis.inB m c = false := by
  by_contra hno
  push_neg at hno
  have hall : ∀ c ∈ Grid.cells m.H m.W, Farq.Analysis.inB m c = true := by
    intro c hc
    obtain ⟨h1, h2⟩ := mem_cells.1 hc
    have hne := hno c h1 h2
    cases hb : Farq.Analysis.inB m c
    · exact absurd hb hne
    · rfl
  have hcount : (Grid.cells m.H m.W).countP (Farq.Analysis.inB m) = m.H * m.W := by
    calc (Grid.cells m.H m.W).countP (Farq.Analysis.inB m)
        = (Grid.cells m.H m.W).length := List.countP_eq_length.2 hall
      _ = m.H * m.W := length_cells m.H m.W
  have hcount8 : (Grid.cells m.H m.W).countP (Farq.Analysis.inB m) = 8 := by
    have hcg : ∀ c ∈ Grid.cells m.H m.W,
        (Farq.Analysis.inB m c = true ↔
          (decide (inBlk t1 c) || decide (inBlk t2 c)) = true) := by
      intro c _
      rw [hIn c]
      simp [Bool.or_eq_true, decide_eq_true_eq]
    rw [List.countP_congr hcg, countP_or_disjoint _ ?_, countP_blk hb1.1 hb1.2,
      countP_blk hb2.1 hb2.2]
    intro a _
    simp only [decide_eq_true_eq, not_and]
    intro h1 h2
    exact absurd rfl ((hs a (inBlk_iff_mem.1 h1) a (inBlk_iff_mem.1 h2)).2)
  have h8 : m.H * m.W = 8 := by rw [← hcount, hcount8]
  have hH2 : 2 ≤ m.H := by omega
  have hW2 : 2 ≤ m.W := by omega
  have hH4 : m.H ≤ 4 := by
    by_contra hgt
    push_neg at hgt
    have h10 : 2 * 5 ≤ m.W * m.H := Nat.mul_le_mul hW2 hgt
    rw [Nat.mul_comm m.W m.H] at h10
    omega
  have hHW : (m.H = 2 ∧ m.W = 4) ∨ (m.H = 4 ∧ m.W = 2) := by
    have h2 : m.H = 2 ∨ m.H = 3 ∨ m.H = 4 := by omega
    rcases h2 with h | h | h
    · rw [h] at h8
      exact Or.inl ⟨h, by omega⟩
    · rw [h] at h8
      omega
    · rw [h] at h8
      exact Or.inr ⟨h, by omega⟩
  have hmemR1 : (t1.1, t1.2 + 1) ∈ blkCells t1 := by simp [blkCells]
  have hmemR2 : (t2.1, t2.2 + 1) ∈ blkCells t2 := by simp [blkCells]
  have hmemD1 : (t1.1 + 1, t1.2) ∈ blkCells t1 := by simp [blkCells]
  have hmemD2 : (t2.1 + 1, t2.2) ∈ blkCells t2 := by simp [blkCells]
  rcases hHW with ⟨hH, hW⟩ | ⟨hH, hW⟩
  · have hr1 : t1.1 = 0 := by omega
    have hr2 : t2.1 = 0 := by omega
    have hc1 : t1.2 ≤ 2 := by omega
    have hc2 : t2.2 ≤ 2 := by omega
    have hd : t2.2 = t1.2 ∨ t2.2 = t1.2 + 1 ∨ t2.2 = t1.2 + 2 ∨
        t1.2 = t2.2 + 1 ∨ t1.2 = t2.2 + 2 := by omega
    rcases hd with h | h | h | h | h
    · exact (hs t1 (self_mem_blkCells t1) t2 (self_mem_blkCells t2)).2
        (Prod.ext (by omega) (by omega))
    · exact (hs _ hmemR1 t2 (self_mem_blkCells t2)).2
        (Prod.ext (by dsimp only; omega) (by dsimp only; omega))
    · exact (hs _ hmemR1 t2 (self_mem_blkCells t2)).1
        (Or.inl ⟨by dsimp only; omega, Or.inl (by dsimp only; omega)⟩)
    · exact (hs t1 (self_mem_blkCells t1) _ hmemR2).2
        (Prod.ext (by dsimp only; omega) (by dsimp only; omega))
    · exact (hs t1 (self_mem_blkCells t1) _ hmemR2).1
        (Or.inl ⟨by dsimp only; omega, Or.inr (by dsimp only; omega)⟩)
  · have hr1 : t1.2 = 0 := by omega
    have hr2 : t2.2 = 0 := by omega
    have hc1 : t1.1 ≤ 2 := by omega
    have hc2 : t2.1 ≤ 2 := by omega
    have hd : t2.1 = t1.1 ∨ t2.1 = t1.1 + 1 ∨ t2.1 = t1.1 + 2 ∨
        t1.1 = t2.1 + 1 ∨ t1.1 = t2.1 + 2 := by omega
    rcases hd with h | h | h | h | h
    · exact (hs t1 (self_mem_blkCells t1) t2 (self_mem_blkCells t2)).2
        (Prod.ext (by omega) (by omega))
    · exact (hs _ hmemD1 t2 (self_mem_blkCells t2)).2
        (Prod.ext (by dsimp only; omega) (by dsimp only; omega))
    · exact (hs _ hmemD1 t2 (self_mem_blkCells t2)).1
        (Or.inr ⟨by dsimp only; omega, Or.inl (by dsimp only; omega)⟩)
    · exact (hs t1 (self_mem_blkCells t1) _ hmemD2).2
        (Prod.ext (by dsimp only; omega) (by dsimp only; omega))
    · exact (hs t1 (self_mem_blkCells t1) _ hmemD2).1
        (Or.inr ⟨by dsimp only; omega, Or.inr (by dsimp only; omega)⟩)

end Farq

namespace Farq

lemma twoBlocks_result (g : Grid FVal) (ps : Farq.PixelSize) (pa : ℚ)
    (t1 t2 : Nat × Nat)
    (hb1 : t1.1 + 1 < g.H ∧ t1.2 + 1 < g.W)
    (hb2 : t2.1 + 1 < g.H ∧ t2.2 + 1 < g.W)
    (hmask : ∀ i, i < g.H → ∀ j, j < g.W →
      (FVal.toBool (g.data i j) = true ↔ inBlk t1 (i, j) ∨ inBlk t2 (i, j)))
    (hsep : ∀ a ∈ blkCells t1, ∀ b ∈ blkCells t2, ¬adjP a b ∧ a ≠ b)
    (hpa : Farq.Analysis.pixelArea ps = Except.ok pa)
    (hlt : Farq.Analysis.key (Farq.Analysis.boolGrid g).W t1 <
      Farq.Analysis.key (Farq.Analysis.boolGrid g).W t2) :
    ∃ lab, Farq.Analysis.get_water_bodies g ps none =
        Except.ok (lab, [(1, 4 * pa), (2, 4 * pa)]) ∧
      (∀ i j, lab.data i j = 0 ∨ lab.data i j = 1 ∨ lab.data i j = 2) ∧
      (∃ c : Nat × Nat, lab.data c.1 c.2 = 1) ∧
      (∃ c : Nat × Nat, lab.data c.1 c.2 = 2) ∧
      (∃ c : Nat × Nat, c.1 < g.H ∧ c.2 < g.W ∧ lab.data c.1 c.2 = 0) := by
  have hb1' : t1.1 + 1 < (Farq.Analysis.boolGrid g).H ∧
      t1.2 + 1 < (Farq.Analysis.boolGrid g).W := hb1
  have hb2' : t2.1 + 1 < (Farq.Analysis.boolGrid g).H ∧
      t2.2 + 1 < (Farq.Analysis.boolGrid g).W := hb2
  have hIn : ∀ c, Farq.Analysis.inB (Farq.Analysis.boolGrid g) c = true ↔
      inBlk t1 c ∨ inBlk t2 c := by
    intro c
    constructor
    · intro h
      obtain ⟨h1, h2, hdata⟩ := inB_bounds h
      have htb : FVal.toBool (g.data c.1 c.2) = true := by
        simp only [Farq.Analysis.boolGrid, Bool.and_eq_true] at hdata
        exact hdata.2
      exact (hmask c.1 h1 c.2 h2).1 htb
    · intro h
      have hbnd : c.1 < g.H ∧ c.2 < g.W := by
        rcases h with h | h
        · exact blk_in_bounds (m := Farq.Analysis.boolGrid g) hb1' h
        · exact blk_in_bounds (m := Farq.Analysis.boolGrid g) hb2' h
      have htb := (hmask c.1 hbnd.1 c.2 hbnd.2).2 h
      simp [Farq.Analysis.inB, Farq.Analysis.boolGrid, hbnd.1, hbnd.2, htb]
  have hnf := num_features_two hb1' hb2' hIn hsep
  have hac := areaCounts_pair hb1' hb2' hIn hsep hlt
  have hsz : ¬(g.size = 0) := by
    intro h
    unfold Grid.size at h
    rcases Nat.mul_eq_zero.1 h with h | h <;> omega
  refine ⟨Farq.Analysis.labelGrid (Farq.Analysis.boolGrid g), ?_, ?_, ?_, ?_, ?_⟩
  · unfold Farq.Analysis.get_water_bodies
    rw [if_neg hsz, hpa]
    simp only [Farq.pure_eq, Farq.ok_bind]
    rw [hnf, hac, show List.range 2 = [0, 1] from rfl]
    simp
  · intro i j
    show Farq.Analysis.labelAt (Farq.Analysis.boolGrid g) (i, j) = 0 ∨ _
    cases hcb : Farq.Analysis.inB (Farq.Analysis.boolGrid g) (i, j) with
    | false => exact Or.inl (labelAt_out hcb)
    | true =>
        rcases (hIn _).1 hcb with h | h
        · exact Or.inr (Or.inl (labelAt_blk1 hb1' hb2' hIn hsep hlt h))
        · exact Or.inr (Or.inr (labelAt_blk2 hb1' hb2' hIn hsep hlt h))
  · exact ⟨t1, labelAt_blk1 hb1' hb2' hIn hsep hlt ⟨Or.inl rfl, Or.inl rfl⟩⟩
  · exact ⟨t2, labelAt_blk2 hb1' hb2' hIn hsep hlt ⟨Or.inl rfl, Or.inl rfl⟩⟩
  · obtain ⟨c, h1, h2, h3⟩ := exists_false_cell hb1' hb2' hIn hsep
    exact ⟨c, h1, h2, labelAt_out h3⟩

end Farq

/-- C7: a mask consisting of exactly two 2×2 blocks of nonzero pixels,
mutually non-adjacent under the 4-connectivity of `ndimage.label` (the code's
fixed connectivity convention), yields exactly 2 connected regions: the
returned mapping is `{1: 4·pixel_area, 2: 4·pixel_area}`, and the labeled map
takes exactly the values {0, 1, 2} (background 0 present, both labels
attained). -/
theorem C7_theorem (g : Grid FVal) (ps : Farq.PixelSize) (pa : ℚ)
    (t1 t2 : Nat × Nat)
    (hb1 : t1.1 + 1 < g.H ∧ t1.2 + 1 < g.W)
    (hb2 : t2.1 + 1 < g.H ∧ t2.2 + 1 < g.W)
    (hmask : ∀ i, i < g.H → ∀ j, j < g.W →
      (FVal.toBool (g.data i j) = true ↔
        Farq.inBlk t1 (i, j) ∨ Farq.inBlk t2 (i, j)))
    (hsep : ∀ a ∈ Farq.blkCells t1, ∀ b ∈ Farq.blkCells t2,
      ¬Farq.adjP a b ∧ a ≠ b)
    (hpa : Farq.Analysis.pixelArea ps = Except.ok pa) :
    ∃ lab, Farq.Analysis.get_water_bodies g ps none =
        Except.ok (lab, [(1, 4 * pa), (2, 4 * pa)]) ∧
      (∀ i j, lab.data i j = 0 ∨ lab.data i j = 1 ∨ lab.data i j = 2) ∧
      (∃ c : Nat × Nat, lab.data c.1 c.2 = 1) ∧
      (∃ c : Nat × Nat, lab.data c.1 c.2 = 2) ∧
      (∃ c : Nat × Nat, c.1 < g.H ∧ c.2 < g.W ∧ lab.data c.1 c.2 = 0) := by
  rcases Nat.lt_or_ge (Farq.Analysis.key (Farq.Analysis.boolGrid g).W t1)
    (Farq.Analysis.key (Farq.Analysis.boolGrid g).W t2) with h | h
  · exact Farq.twoBlocks_result g ps pa t1 t2 hb1 hb2 hmask hsep hpa h
  · have hne : Farq.Analysis.key (Farq.Analysis.boolGrid g).W t1 ≠
        Farq.Analysis.key (Farq.Analysis.boolGrid g).W t2 :=
      Farq.keys_ne (m := Farq.Analysis.boolGrid g) hb1 hb2 hsep
    have hlt2 : Farq.Analysis.key (Farq.Analysis.boolGrid g).W t2 <
        Farq.Analysis.key (Farq.Analysis.boolGrid g).W t1 :=
      lt_of_le_of_ne h hne.symm
    have hmask' := fun i hi j hj => (hmask i hi j hj).trans or_comm
    exact Farq.twoBlocks_result g ps pa t2 t1 hb2 hb1 hmask'
      (Farq.hs_swap hsep) hpa hlt2

/-- C7 witness: the 2×5 mask with 2×2 blocks at (0,0) and (0,3), separated by
a zero column, with 30 m pixels. -/
theorem C7_witness :
    ∃ lab, Farq.Analysis.get_water_bodies
        (Grid.ofRows (FVal.fin 0)
          [[FVal.fin 1, FVal.fin 1, FVal.fin 0, FVal.fin 1, FVal.fin 1],
           [FVal.fin 1, FVal.fin 1, FVal.fin 0, FVal.fin 1, FVal.fin 1]])
        (Farq.PixelSize.scalar 30) none =
        Except.ok (lab, [(1, 4 * (9 / 10000)), (2, 4 * (9 / 10000))]) ∧
      (∀ i j, lab.data i j = 0 ∨ lab.data i j = 1 ∨ lab.data i j = 2) ∧
      (∃ c : Nat × Nat, lab.data c.1 c.2 = 1) ∧
      (∃ c : Nat × Nat, lab.data c.1 c.2 = 2) ∧
      (∃ c : Nat × Nat, c.1 < (Grid.ofRows (FVal.fin 0)
          [[FVal.fin 1, FVal.fin 1, FVal.fin 0, FVal.fin 1, FVal.fin 1],
           [FVal.fin 1, FVal.fin 1, FVal.fin 0, FVal.fin 1, FVal.fin 1]]).H ∧
        c.2 < (Grid.ofRows (FVal.fin 0)
          [[FVal.fin 1, FVal.fin 1, FVal.fin 0, FVal.fin 1, FVal.fin 1],
           [FVal.fin 1, FVal.fin 1, FVal.fin 0, FVal.fin 1, FVal.fin 1]]).W ∧
        lab.data c.1 c.2 = 0) :=
  C7_theorem
    (Grid.ofRows (FVal.fin 0)
      [[FVal.fin 1, FVal.fin 1, FVal.fin 0, FVal.fin 1, FVal.fin 1],
       [FVal.fin 1, FVal.fin 1, FVal.fin 0, FVal.fin 1, FVal.fin 1]])
    (Farq.PixelSize.scalar 30) (9 / 10000) (0, 0) (0, 3)
    (by decide) (by decide) (by decide) (by decide)
    (by with_unfolding_all rfl)
